import Mathlib

/-!
Verification of the gerbmerge core (Gerber/Excellon parsing, trimming and
rotation) against its natural-language specification.

The Python source is shallowly embedded: Python integers become `Int`,
Python floats are modelled as exact rationals (`ℚ`), and the heterogeneous
"tuple or string" command lists become a closed inductive type.  The
distinction between Python `int` and `float` values, which matters for the
integer-coordinate invariant, is kept by the `PyNum` type.  `pyRound`
mirrors Python 3's `round` (round half to even) and `pyTrunc` mirrors
`int()` applied to a float (truncation towards zero).
-/

/-- A Python number: either an `int` or a `float` (modelled exactly as a
rational).  `isinstance(v, int)` corresponds to the `pint` constructor. -/
inductive PyNum where
  | pint : Int → PyNum
  | pfloat : ℚ → PyNum
deriving DecidableEq

/-- Numeric value of a Python number (Python compares `int` and `float`
by value, e.g. `3 == 3.0`). -/
def PyNum.q : PyNum → ℚ
  | .pint n => (n : ℚ)
  | .pfloat x => x

/-- True iff the value is a Python `int` (`isinstance(v, int)`). -/
def PyNum.isInt : PyNum → Bool
  | .pint _ => true
  | .pfloat _ => false

/-- Python's `round` on a real value: nearest integer, ties to even. -/
def pyRound (q : ℚ) : Int :=
  let n : Int := ⌊q⌋
  let r : ℚ := q - (n : ℚ)
  if r < 1/2 then n
  else if 1/2 < r then n + 1
  else if n % 2 = 0 then n else n + 1

/-- Python's `int()` on a float: truncation towards zero. -/
def pyTrunc : PyNum → Int
  | .pint n => n
  | .pfloat x => Int.tdiv x.num (x.den : Int)

theorem pyRound_intCast (n : Int) : pyRound (n : ℚ) = n := by
  unfold pyRound
  norm_num

/-! ## geometry.py -/

/-- `geometry.uniqueify`: drop duplicate list elements, keeping the first
occurrence of each (Python's `dict.fromkeys` preserves insertion order).
`seen` accumulates the values already emitted. -/
def uniqAux {α : Type} [DecidableEq α] (seen : List α) : List α → List α
  | [] => []
  | x :: xs => if x ∈ seen then uniqAux seen xs else x :: uniqAux (x :: seen) xs

/-- `geometry.uniqueify(L)`. -/
def uniqueify {α : Type} [DecidableEq α] (l : List α) : List α := uniqAux [] l

/-- `geometry.roundPoint`: round an (X,Y) point to integer coordinates. -/
def roundPoint (p : ℚ × ℚ) : Int × Int := (pyRound p.1, pyRound p.2)

/-- `geometry.isSegmentVertical`. -/
abbrev isSegmentVertical (p1 p2 : ℚ × ℚ) : Prop := p1.1 = p2.1

/-- `geometry.isSegmentHorizontal`. -/
abbrev isSegmentHorizontal (p1 p2 : ℚ × ℚ) : Prop := p1.2 = p2.2

/-- `geometry.segmentSlope` (float division modelled exactly on `ℚ`). -/
def segmentSlope (p1 p2 : ℚ × ℚ) : ℚ := (p2.2 - p1.2) / (p2.1 - p1.1)

/-- `geometry.isPointOnSegment`: the candidate point is assumed to be on
the line through `p1,p2`; membership in the segment is tested on one
ordinate. -/
abbrev isPointOnSegment (pt p1 p2 : ℚ × ℚ) : Prop :=
  if p1.1 = p2.1 then (pt.2 - p2.2) * (pt.2 - p1.2) ≤ 0
  else (pt.1 - p2.1) * (pt.1 - p1.1) ≤ 0

/-- The candidate intersection point of the lines through `p1,p2` and
`q1,q2` computed by `geometry.segmentXsegment1pt` before the
on-both-segments check. -/
def segXsegCand (p1 p2 q1 q2 : ℚ × ℚ) : Option (ℚ × ℚ) :=
  if isSegmentVertical p1 p2 then
    if isSegmentVertical q1 q2 then none
    else some (p1.1, segmentSlope q1 q2 * (p1.1 - q1.1) + q1.2)
  else if isSegmentVertical q1 q2 then
    some (q1.1, segmentSlope p1 p2 * (q1.1 - p1.1) + p1.2)
  else
    let m1 := segmentSlope p1 p2
    let m2 := segmentSlope q1 q2
    if m1 = m2 then none
    else
      let x := (p1.1 * m1 - p1.2 - q1.1 * m2 + q1.2) / (m1 - m2)
      some (x, m1 * (x - p1.1) + p1.2)

/-- `geometry.segmentXsegment1pt`: single intersection point of two
segments, rounded to integers, or `none`. -/
def segmentXsegment1pt (p1 p2 q1 q2 : ℚ × ℚ) : Option (Int × Int) :=
  match segXsegCand p1 p2 q1 q2 with
  | none => none
  | some e =>
      if isPointOnSegment e p1 p2 ∧ isPointOnSegment e q1 q2 then some (roundPoint e)
      else none

/-- A rectangle `(minx, miny, maxx, maxy)`, the source's 4-tuple "rect". -/
structure Rect where
  x0 : ℚ
  y0 : ℚ
  x1 : ℚ
  y1 : ℚ
deriving DecidableEq

/-- `geometry.isPointStrictlyInRectangle`. -/
abbrev isPointStrictlyInRectangle (pt : ℚ × ℚ) (r : Rect) : Prop :=
  (r.x0 < pt.1 ∧ pt.1 < r.x1) ∧ (r.y0 < pt.2 ∧ pt.2 < r.y1)

/-- `geometry.canonicalizeExtents(pt1, pt2)` (two-point form); the corner
points of the result are recovered from the returned rect. -/
def canonicalizeExtents (pt1 pt2 : ℚ × ℚ) : Rect :=
  ⟨min pt1.1 pt2.1, min pt1.2 pt2.2, max pt1.1 pt2.1, max pt1.2 pt2.2⟩

/-- `geometry.canonicalizeExtents(E)` (single 4-tuple form). -/
def canonicalizeExtents1 (E : Rect) : Rect :=
  ⟨min E.x0 E.x1, min E.y0 E.y1, max E.x0 E.x1, max E.y0 E.y1⟩

/-- One side check in `geometry.segmentXbox`: accumulate the intersection
point with side `c1`-`c2` into the list `acc.1` of certain intersections
or `acc.2` of potential corner intersections. -/
def addCheck (p1 p2 : ℚ × ℚ) (one : Bool) (c1 c2 : ℚ × ℚ)
    (acc : List (Int × Int) × List (Int × Int)) :
    List (Int × Int) × List (Int × Int) :=
  match segmentXsegment1pt p1 p2 c1 c2 with
  | none => acc
  | some v =>
      if ((v.1 : ℚ), (v.2 : ℚ)) = c1 ∨ ((v.1 : ℚ), (v.2 : ℚ)) = c2 then
        if one then (acc.1 ++ [v], acc.2) else (acc.1, acc.2 ++ [v])
      else (acc.1 ++ [v], acc.2)

/-- Lexicographic insertion used to model Python's `list.sort()` on
(X,Y) integer tuples. -/
def insertPt (a : Int × Int) : List (Int × Int) → List (Int × Int)
  | [] => [a]
  | b :: t =>
      if a.1 < b.1 ∨ (a.1 = b.1 ∧ a.2 ≤ b.2) then a :: b :: t
      else b :: insertPt a t

/-- Python's `list.sort()` on (X,Y) integer tuples (lexicographic). -/
def sortPts : List (Int × Int) → List (Int × Int)
  | [] => []
  | a :: t => insertPt a (sortPts t)

/-- `geometry.segmentXbox`: intersection points of the segment
`pt1`-`pt2` with the box spanned by corners `c1`, `c2` (canonicalized
internally).  The source asserts `numPts <= 2` before returning; the
embedding is total and the assertion is proved as a theorem. -/
def segmentXbox (pt1 pt2 c1 c2 : ℚ × ℚ) : List (Int × Int) :=
  let rect := canonicalizeExtents c1 c2
  let llpt : ℚ × ℚ := (rect.x0, rect.y0)
  let ulpt : ℚ × ℚ := (rect.x0, rect.y1)
  let urpt : ℚ × ℚ := (rect.x1, rect.y1)
  let lrpt : ℚ × ℚ := (rect.x1, rect.y0)
  let s1 : Bool := if isPointStrictlyInRectangle pt1 rect then true else false
  let s2 : Bool := if isPointStrictlyInRectangle pt2 rect then true else false
  let one : Bool := xor s1 s2
  let a1 := addCheck pt1 pt2 one llpt ulpt ([], [])
  let a2 := addCheck pt1 pt2 one ulpt urpt a1
  let a3 := addCheck pt1 pt2 one urpt lrpt a2
  let a4 := addCheck pt1 pt2 one llpt lrpt a3
  let L := uniqueify a4.1
  let C := uniqueify a4.2
  if L.length + C.length = 2 then
    match C with
    | [u, v] => if u.2 = v.2 ∨ u.1 = v.1 then [] else sortPts (L ++ C)
    | _ => sortPts (L ++ C)
  else sortPts L

/-- The `numPts` quantity of `geometry.segmentXbox` whose bound the
source asserts. -/
def segmentXboxNumPts (pt1 pt2 c1 c2 : ℚ × ℚ) : Nat :=
  let rect := canonicalizeExtents c1 c2
  let llpt : ℚ × ℚ := (rect.x0, rect.y0)
  let ulpt : ℚ × ℚ := (rect.x0, rect.y1)
  let urpt : ℚ × ℚ := (rect.x1, rect.y1)
  let lrpt : ℚ × ℚ := (rect.x1, rect.y0)
  let s1 : Bool := if isPointStrictlyInRectangle pt1 rect then true else false
  let s2 : Bool := if isPointStrictlyInRectangle pt2 rect then true else false
  let one : Bool := xor s1 s2
  let a1 := addCheck pt1 pt2 one llpt ulpt ([], [])
  let a2 := addCheck pt1 pt2 one ulpt urpt a1
  let a3 := addCheck pt1 pt2 one urpt lrpt a2
  let a4 := addCheck pt1 pt2 one llpt lrpt a3
  (uniqueify a4.1).length + (uniqueify a4.2).length

/-- `geometry.areExtentsOverlapping` (rectangles assumed canonical). -/
abbrev areExtentsOverlapping (E1 E2 : Rect) (allowLines : Bool) : Prop :=
  if allowLines then
    ¬(E2.x0 > E1.x1 ∨ E2.x1 < E1.x0 ∨ E2.y0 > E1.y1 ∨ E2.y1 < E1.y0)
  else
    ¬(E2.x0 ≥ E1.x1 ∨ E2.x1 ≤ E1.x0 ∨ E2.y0 ≥ E1.y1 ∨ E2.y1 ≤ E1.y0)

/-- `geometry.intersectExtents` (inputs canonicalized internally). -/
def intersectExtents (E1 E2 : Rect) : Option Rect :=
  let r1 := canonicalizeExtents1 E1
  let r2 := canonicalizeExtents1 E2
  if areExtentsOverlapping r1 r2 false then
    some ⟨max r1.x0 r2.x0, max r1.y0 r2.y0, min r1.x1 r2.x1, min r1.y1 r2.y1⟩
  else none

/-- `geometry.isRect1InRect2`. -/
abbrev isRect1InRect2 (E1 E2 : Rect) : Prop :=
  let r1 := canonicalizeExtents1 E1
  let r2 := canonicalizeExtents1 E2
  r1.x0 ≥ r2.x0 ∧ r1.y0 ≥ r2.y0 ∧ r1.x1 ≤ r2.x1 ∧ r1.y1 ≤ r2.y1

/-- `geometry.rectWidth`. -/
def rectWidth (r : Rect) : ℚ := |r.x1 - r.x0|

/-- `geometry.rectHeight`. -/
def rectHeight (r : Rect) : ℚ := |r.y1 - r.y0|

/-- `geometry.rectCenter` as the source defines it: the pair
`(rectWidth(rect)/2, rectHeight(rect)/2)` (Python 3 true division,
hence floats).  Note this is not the midpoint of the rectangle. -/
def rectCenter (r : Rect) : ℚ × ℚ := (rectWidth r / 2, rectHeight r / 2)

/-- The center point of a rectangle as the specification's words demand
("the intersection rectangle's center point"): the midpoint of the two
corners.  Stated from the spec, for comparison with `rectCenter`. -/
def specRectCenter (r : Rect) : ℚ × ℚ := ((r.x0 + r.x1) / 2, (r.y0 + r.y1) / 2)

/-! ## util.py -/

/-- `util.in2gerb`: convert inches (or mm) to internal Gerber units.
The source branches on the configured measurement units; `inch` is that
configuration flag. -/
def in2gerb (inch : Bool) (v : ℚ) : Int :=
  if inch then pyRound (v * 100000) else pyRound (v * 1000)

/-- `util.gerb2in`: convert internal Gerber units back to inches (or mm);
float multiplication by 1e-5 / 1e-3 modelled exactly. -/
def gerb2in (inch : Bool) (v : ℚ) : ℚ :=
  if inch then v * (1 / 100000) else v * (1 / 1000)

/-! ## gerber.py command representation and trim -/

/-- One entry of `GerberParser.commands`: either an (X,Y,D) tuple, an
(X,Y,I,J,D,signed) tuple, an aperture/tool D-code string, a G-code
string, or an RS-274X `%...%` directive string. -/
inductive TCmd where
  | draw (x y : PyNum) (d : Int)
  | cdraw (x y i j : PyNum) (d : Int) (s : Bool)
  | dcode (n : Nat)
  | gcode (s : String)
  | pct (s : String)
deriving DecidableEq

/-- Modelled from the spec: `aptable.Aperture` (aptable.py is not in the
source tree).  Trim only needs whether the aperture is a Rectangle
(`isRectangle()`) and its two dimensions in inches. -/
structure Aperture where
  rect : Bool
  dimx : ℚ
  dimy : ℚ
deriving DecidableEq

/-- Modelled from the spec: `aptable.Aperture.rectangleAsRect(x, y)` — the
flash footprint rectangle of a rectangular aperture flashed at (x,y),
the aperture's inch dimensions converted to internal units and centered
on the flash point. -/
def rectangleAsRect (inch : Bool) (ap : Aperture) (x y : ℚ) : Rect :=
  let w : ℚ := ((in2gerb inch ap.dimx : Int) : ℚ)
  let h : ℚ := ((in2gerb inch ap.dimy : Int) : ℚ)
  ⟨x - w / 2, y - h / 2, x + w / 2, y + h / 2⟩

/-- Modelled from the spec: `aptable.findOrAddAperture` — global-table
interning: return the code of a structurally equal aperture if present,
else insert with a fresh code.  Returns (code, table, next fresh code). -/
def findOrAddAperture (gat : List (Nat × Aperture)) (fresh : Nat) (ap : Aperture) :
    Nat × List (Nat × Aperture) × Nat :=
  match gat.find? (fun e => if e.2 = ap then true else false) with
  | some e => (e.1, gat, fresh)
  | none => (fresh, gat ++ [(fresh, ap)], fresh + 1)

/-- The extents of a `GerberParser` (`self.minx` .. `self.maxy`). -/
structure TrimEnv where
  minx : Int
  miny : Int
  maxx : Int
  maxy : Int
deriving DecidableEq

/-- `GerberParser.inBorders`. -/
abbrev gInBorders (env : TrimEnv) (x y : ℚ) : Prop :=
  x ≥ (env.minx : ℚ) ∧ x ≤ (env.maxx : ℚ) ∧ y ≥ (env.miny : ℚ) ∧ y ≤ (env.maxy : ℚ)

/-- State threaded through the command loop of `GerberParser.trim`:
the rebuilt command list, the `lastInBorders` flag, the last (X,Y),
the last selected aperture (global code and definition), the global
aperture table with its next free code, and `self.apertures`. -/
structure TrimState where
  newcmds : List TCmd
  lastInB : Bool
  lastx : PyNum
  lasty : PyNum
  lastAp : Option (Nat × Aperture)
  gat : List (Nat × Aperture)
  fresh : Nat
  aps : List Nat
deriving DecidableEq

/-- The flash (`d == 3`) branch of `GerberParser.trim`.  A flash with no
previously selected aperture would raise `AttributeError` in the source
(unreachable for parser-produced streams); it is modelled as dropping
the command.  The `makeLocalApertureCode` bookkeeping only touches the
local translation table `apxlat`, which no command observes, and is
omitted. -/
def trimFlash (inch : Bool) (env : TrimEnv) (st : TrimState) (x y : PyNum) (d : Int) :
    TrimState :=
  match st.lastAp with
  | none => st
  | some ca =>
      if ca.2.rect then
        let fp := rectangleAsRect inch ca.2 x.q y.q
        let borders : Rect := ⟨(env.minx : ℚ), (env.miny : ℚ), (env.maxx : ℚ), (env.maxy : ℚ)⟩
        if isRect1InRect2 fp borders then { st with newcmds := st.newcmds ++ [.draw x y d] }
        else
          match intersectExtents fp borders with
          | some nr =>
              let w := rectWidth nr
              let h := rectHeight nr
              let c := rectCenter nr
              if 10 ≤ min w h then
                let ni := findOrAddAperture st.gat st.fresh
                  ⟨true, gerb2in inch w, gerb2in inch h⟩
                { st with
                  newcmds := st.newcmds ++
                    [.dcode ni.1, .draw (.pfloat c.1) (.pfloat c.2) 3, .dcode ca.1],
                  gat := ni.2.1,
                  fresh := ni.2.2,
                  aps := if ni.1 ∈ st.aps then st.aps else st.aps ++ [ni.1] }
              else st
          | none => st
      else if gInBorders env x.q y.q then
        { st with newcmds := st.newcmds ++ [.draw x y d] }
      else st

/-- The exposure-on (`d == 1`) branch of `GerberParser.trim`: the four
cases A-D of the source, clipping the segment from the last point to
(x,y) against the borders box. -/
def trimLine (env : TrimEnv) (st : TrimState) (x y : PyNum) (d : Int) (newInB : Bool) :
    TrimState :=
  if st.lastInB && newInB then { st with newcmds := st.newcmds ++ [.draw x y d] }
  else
    match segmentXbox (st.lastx.q, st.lasty.q) (x.q, y.q)
      ((env.minx : ℚ), (env.miny : ℚ)) ((env.maxx : ℚ), (env.maxy : ℚ)) with
    | [] => st
    | [p] =>
        if newInB then
          { st with newcmds := st.newcmds ++ [.draw (.pint p.1) (.pint p.2) 2, .draw x y d] }
        else
          { st with newcmds := st.newcmds ++ [.draw (.pint p.1) (.pint p.2) 1, .draw x y 2] }
    | p :: q :: _ =>
        { st with newcmds := st.newcmds ++
            [.draw (.pint p.1) (.pint p.2) 2, .draw (.pint q.1) (.pint q.2) 1, .draw x y 2] }

/-- One iteration of the command loop of `GerberParser.trim`. -/
def trimStep (inch : Bool) (env : TrimEnv) (st : TrimState) : TCmd → TrimState
  | .cdraw x y i j d s => { st with newcmds := st.newcmds ++ [.cdraw x y i j d s] }
  | .dcode n =>
      { st with
        newcmds := st.newcmds ++ [.dcode n],
        lastAp :=
          if 10 ≤ n then
            match st.gat.find? (fun e => if e.1 = n then true else false) with
            | some e => some (n, e.2)
            | none => none
          else st.lastAp }
  | .gcode s => { st with newcmds := st.newcmds ++ [.gcode s] }
  | .pct s => { st with newcmds := st.newcmds ++ [.pct s] }
  | .draw x y d =>
      let newInB : Bool := if gInBorders env x.q y.q then true else false
      let st1 :=
        if d = 3 then trimFlash inch env st x y d
        else if d = 2 then
          (if newInB then { st with newcmds := st.newcmds ++ [.draw x y d] } else st)
        else trimLine env st x y d newInB
      { st1 with lastx := x, lasty := y, lastInB := newInB }

/-- `GerberParser.trim`: walk the command stream once, starting with
`lastInBorders = True`, last point at (minx, miny) and no aperture. -/
def gerberTrim (inch : Bool) (env : TrimEnv) (gat : List (Nat × Aperture)) (fresh : Nat)
    (aps : List Nat) (cmds : List TCmd) : TrimState :=
  cmds.foldl (trimStep inch env)
    ⟨[], true, .pint env.minx, .pint env.miny, none, gat, fresh, aps⟩

/-! ## excellon.py -/

/-- The trim-relevant state of an `ExcellonParser`: plunge commands per
tool, tool diameters, and the adopted extents. -/
structure ExcState where
  xcommands : List (String × List (Int × Int))
  xdiam : List (String × ℚ)
  minx : Int
  miny : Int
  maxx : Int
  maxy : Int
deriving DecidableEq

/-- `ExcellonParser.inBorders`. -/
abbrev excInBorders (st : ExcState) (x y : ℚ) : Prop :=
  x ≥ (st.minx : ℚ) ∧ x ≤ (st.maxx : ℚ) ∧ y ≥ (st.miny : ℚ) ∧ y ≤ (st.maxy : ℚ)

/-- The per-plunge filter of `ExcellonParser.trim`: drill data is 2.4
format while extents are 2.5 format, so inch mode scales by 10 and
metric mode by 0.1 (the float 0.1 modelled exactly). -/
def excKeep (inch : Bool) (st : ExcState) (p : Int × Int) : Bool :=
  if inch then
    (if excInBorders st (10 * (p.1 : ℚ)) (10 * (p.2 : ℚ)) then true else false)
  else
    (if excInBorders st ((1 / 10 : ℚ) * (p.1 : ℚ)) ((1 / 10 : ℚ) * (p.2 : ℚ)) then true
     else false)

/-- The tools of `ExcellonParser.trim` whose `validList` comes out
empty; they are deleted from both maps. -/
def excDead (inch : Bool) (st : ExcState) : List String :=
  st.xcommands.filterMap
    (fun e => if e.2.filter (excKeep inch st) = [] then some e.1 else none)

/-- `ExcellonParser.trim`: filter each tool's plunges to the extents;
a tool left with no plunges is removed from both the plunge map and the
diameter map. -/
def excTrim (inch : Bool) (st : ExcState) : ExcState :=
  { st with
    xcommands := st.xcommands.filterMap
      (fun e =>
        if e.2.filter (excKeep inch st) = [] then none
        else some (e.1, e.2.filter (excKeep inch st))),
    xdiam := st.xdiam.filter (fun e => if e.1 ∈ excDead inch st then false else true) }

/-! ## excellon.py line interpretation (ExcellonParser.parse loop body)

Lines are modelled without their trailing newline.  Python's `$` matches
just before a trailing newline, so the anchored patterns behave
identically; the only consequence is noted on the G90/G91 branch. -/

/-- Errors raised while interpreting one Excellon line.  `valueError` is
the uncaught `ValueError` that `int()` raises inside `xln2tenthou` when
handed a string containing a decimal point. -/
inductive ExcErr where
  | formatOne
  | unitsMismatch
  | illegalDiameter (s : String)
  | dupTool (t : String)
  | undefinedToolJob (t : String)
  | undefinedToolDefault (t : String)
  | plungeNoTool
  | uninterpretable (line : String)
  | valueError (s : String)
deriving DecidableEq

instance exceptDecEq {ε α : Type} [DecidableEq ε] [DecidableEq α] :
    DecidableEq (Except ε α) := fun x y =>
  match x, y with
  | .ok a, .ok b =>
      if h : a = b then .isTrue (by rw [h])
      else .isFalse (fun hh => h (Except.ok.inj hh))
  | .error a, .error b =>
      if h : a = b then .isTrue (by rw [h])
      else .isFalse (fun hh => h (Except.error.inj hh))
  | .ok _, .error _ => .isFalse (fun hh => Except.noConfusion hh)
  | .error _, .ok _ => .isFalse (fun hh => Except.noConfusion hh)

/-- Mutable state of the `ExcellonParser.parse` loop: current tool,
leading-zero suppression flag, positioning mode, last X/Y, and the
tool-diameter and plunge maps being built. -/
structure ExcParseState where
  currtool : Option String
  sup : Bool
  mode : String
  lastx : Int
  lasty : Int
  xdiam : List (String × ℚ)
  xcommands : List (String × List (Int × Int))
deriving DecidableEq

/-- Digits of a nonempty all-digit character list as a number. -/
def natOfDigits (cs : List Char) : Nat :=
  cs.foldl (fun a c => 10 * a + (c.toNat - 48)) 0

/-- Split a character list into its leading digit run and the rest. -/
def spanDigits : List Char → List Char × List Char
  | [] => ([], [])
  | c :: cs =>
      if c.isDigit then
        let r := spanDigits cs
        (c :: r.1, r.2)
      else ([], c :: cs)

/-- A nonempty all-digit list as a number, else `none`. -/
def natDigits? (cs : List Char) : Option Nat :=
  if cs ≠ [] ∧ cs.all Char.isDigit then some (natOfDigits cs) else none

/-- Python's `int(s)` on the captured coordinate strings: an optional
sign followed by digits; anything else (e.g. a decimal point) raises
`ValueError`, modelled as `none`. -/
def pyIntOfChars : List Char → Option Int
  | '+' :: cs => (natDigits? cs).map Int.ofNat
  | '-' :: cs => (natDigits? cs).map (fun n => -(n : Int))
  | cs => (natDigits? cs).map Int.ofNat

/-- Python's `float(s)` on a `[0-9.]+` capture: at most one dot and at
least one digit, else `ValueError` (`none`). -/
def floatOfChars (cs : List Char) : Option ℚ :=
  if cs.count '.' ≥ 2 then none
  else
    let a := cs.takeWhile (fun c => c ≠ '.')
    let b := (cs.dropWhile (fun c => c ≠ '.')).drop 1
    if (a ++ b) = [] ∨ ¬(a ++ b).all Char.isDigit then none
    else some ((natOfDigits a : ℚ) + (natOfDigits b : ℚ) / ((10 : ℚ) ^ b.length))

/-- `'T%02d' % n`: the canonical two-digit zero-padded tool name. -/
def canonTool (n : Nat) : String :=
  if n < 10 then "T0" ++ toString n else "T" ++ toString n

/-- Association-list lookup (Python dict access by key). -/
def alookup {β : Type} (l : List (String × β)) (t : String) : Option β :=
  (l.find? (fun e => if e.1 = t then true else false)).map (fun e => e.2)

/-- `self.xcommands[currtool].append((x,y))` with the `KeyError` fallback
creating a fresh entry (dict insertion order preserved). -/
def addPlunge : List (String × List (Int × Int)) → String → (Int × Int) →
    List (String × List (Int × Int))
  | [], t, p => [(t, [p])]
  | e :: es, t, p =>
      if e.1 = t then (e.1, e.2 ++ [p]) :: es else e :: addPlunge es t p

/-- `ExcellonParser.xln2tenthou` on one captured string: trailing-zero
pad to `zeropadto` unless leading zeros are suppressed, convert with
`int()` (`none` = `ValueError`), scale by the format divisor and round. -/
def xln2tenthou1 (sup : Bool) (zeropadto : Nat) (div : ℚ) (cs : List Char) : Option Int :=
  let s' := if sup then cs else cs ++ List.replicate (zeropadto - cs.length) '0'
  (pyIntOfChars s').map (fun n => pyRound ((n : ℚ) * div))

/-- `format_pat`: `^FMAT,(\d)$`. -/
def matchFormat (s : String) : Bool :=
  match s.toList with
  | 'F' :: 'M' :: 'A' :: 'T' :: ',' :: [d] => d.isDigit
  | _ => false

/-- `tool_mode_pat` used with `.match`: the line starts with `G0[0-5]`. -/
def matchToolMode (s : String) : Bool :=
  match s.toList with
  | 'G' :: '0' :: c :: _ => 48 ≤ c.toNat ∧ c.toNat ≤ 53
  | _ => false

/-- `xzsup_pat`: `^INCH,([LT])Z$`; returns the captured letter, `true`
for `L`. -/
def matchXZsup (s : String) : Option Bool :=
  match s.toList with
  | 'I' :: 'N' :: 'C' :: 'H' :: ',' :: c :: 'Z' :: [] =>
      if c = 'L' then some true else if c = 'T' then some false else none
  | _ => none

/-- Consume an optional `(?:F\d+)?`-style group: the marker character
followed by at least one digit, else leave the input unchanged. -/
def consumeOptGroup (m : Char) (l : List Char) : List Char :=
  match l with
  | c :: t =>
      if c = m then
        let r := spanDigits t
        if r.1 = [] then l else r.2
      else l
  | [] => l

/-- `xtdef_pat`: `^(T\d+)(?:F\d+)?(?:S\d+)?C([0-9.]+)$`; returns the
tool number and the diameter capture. -/
def matchXtdef (s : String) : Option (Nat × List Char) :=
  match s.toList with
  | 'T' :: rest =>
      let d := spanDigits rest
      if d.1 = [] then none
      else
        let r2 := consumeOptGroup 'F' d.2
        let r3 := consumeOptGroup 'S' r2
        match r3 with
        | 'C' :: t =>
            let dm := t.takeWhile (fun c => c.isDigit ∨ c = '.')
            let rest2 := t.dropWhile (fun c => c.isDigit ∨ c = '.')
            if dm = [] ∨ rest2 ≠ [] then none else some (natOfDigits d.1, dm)
        | _ => none
  | _ => none

/-- `xtdef2_pat`: `^(T\d+)C([0-9.]+)(?:F\d+)?(?:S\d+)?$`. -/
def matchXtdef2 (s : String) : Option (Nat × List Char) :=
  match s.toList with
  | 'T' :: rest =>
      let d := spanDigits rest
      if d.1 = [] then none
      else
        match d.2 with
        | 'C' :: t =>
            let dm := t.takeWhile (fun c => c.isDigit ∨ c = '.')
            let rest2 := t.dropWhile (fun c => c.isDigit ∨ c = '.')
            if dm = [] then none
            else
              let r2 := consumeOptGroup 'F' rest2
              let r3 := consumeOptGroup 'S' r2
              if r3 ≠ [] then none else some (natOfDigits d.1, dm)
        | _ => none
  | _ => none

/-- `xtool_pat`: `^(T\d+)$`. -/
def matchXtool (s : String) : Option Nat :=
  match s.toList with
  | 'T' :: rest => natDigits? rest
  | _ => none

/-- An optionally signed digit run with a mandatory decimal point,
`[+-]?\d+\.\d+`; returns the capture (sign and dot included) and the
remaining characters. -/
def parseSignedDec (l : List Char) : Option (List Char × List Char) :=
  let sgn : List Char × List Char :=
    match l with
    | '+' :: t => (['+'], t)
    | '-' :: t => (['-'], t)
    | _ => ([], l)
  let d1 := spanDigits sgn.2
  if d1.1 = [] then none
  else
    match d1.2 with
    | '.' :: t =>
        let d2 := spanDigits t
        if d2.1 = [] then none else some (sgn.1 ++ d1.1 ++ '.' :: d2.1, d2.2)
    | _ => none

/-- `xydraw_pat`: `^X([+-]?\d+\.\d+)Y([+-]?\d+\.\d+)$` — note this fork's
pattern demands a decimal point in both ordinates. -/
def matchXYdraw (s : String) : Option (List Char × List Char) :=
  match s.toList with
  | 'X' :: rest =>
      match parseSignedDec rest with
      | some xr =>
          (match xr.2 with
           | 'Y' :: rest2 =>
               match parseSignedDec rest2 with
               | some yr => if yr.2 = [] then some (xr.1, yr.1) else none
               | none => none
           | _ => none)
      | none => none
  | _ => none

/-- An optionally signed integer digit run covering the whole input,
`^[+-]?\d+$`; returns the capture. -/
def parseSignedIntAll (l : List Char) : Option (List Char) :=
  let sgn : List Char × List Char :=
    match l with
    | '+' :: t => (['+'], t)
    | '-' :: t => (['-'], t)
    | _ => ([], l)
  if sgn.2 ≠ [] ∧ sgn.2.all Char.isDigit then some (sgn.1 ++ sgn.2) else none

/-- `xdraw_pat`: `^X([+-]?\d+)$`. -/
def matchXdraw (s : String) : Option (List Char) :=
  match s.toList with
  | 'X' :: rest => parseSignedIntAll rest
  | _ => none

/-- `ydraw_pat`: `^Y([+-]?\d+)$`. -/
def matchYdraw (s : String) : Option (List Char) :=
  match s.toList with
  | 'Y' :: rest => parseSignedIntAll rest
  | _ => none

/-- Commit a plunge at (x,y): fatal if no tool was ever selected, else
record it under the current tool and remember the position. -/
def excPlunge (st : ExcParseState) (xv yv : Int) : Except ExcErr ExcParseState :=
  match st.currtool with
  | none => .error .plungeNoTool
  | some t =>
      .ok { st with xcommands := addPlunge st.xcommands t (xv, yv), lastx := xv, lasty := yv }

/-- The tool definition branches (`xtdef_pat` / `xtdef2_pat`). -/
def excToolDef (st : ExcParseState) (tn : Nat) (dm : List Char) : Except ExcErr ExcParseState :=
  match floatOfChars dm with
  | none => .error (.illegalDiameter (String.mk dm))
  | some diam =>
      let ct := canonTool tn
      if (alookup st.xdiam ct).isSome then .error (.dupTool ct)
      else .ok { st with currtool := some ct, xdiam := st.xdiam ++ [(ct, diam)] }

/-- The tool change branch (`xtool_pat`): resolve the diameter from the
embedded definitions, then the job tool list, then the global default
tool list. -/
def excToolChange (toolList defTools : List (String × ℚ)) (st : ExcParseState) (tn : Nat) :
    Except ExcErr ExcParseState :=
  let ct := canonTool tn
  match alookup st.xdiam ct with
  | some _ => .ok { st with currtool := some ct }
  | none =>
      if toolList ≠ [] then
        match alookup toolList ct with
        | some diam => .ok { st with currtool := some ct, xdiam := st.xdiam ++ [(ct, diam)] }
        | none => .error (.undefinedToolJob ct)
      else
        match alookup defTools ct with
        | some diam => .ok { st with currtool := some ct, xdiam := st.xdiam ++ [(ct, diam)] }
        | none => .error (.undefinedToolDefault ct)

/-- One iteration of the `ExcellonParser.parse` loop on a line (without
its trailing newline), following the source's match order.  On the
`FMAT` branch the source compares the captured string against the
integer 1, which is never true in Python 3, so the line is skipped.
On the G90/G91 branch the source compares the newline-bearing line
against `'G90'`/`'G91'`, which never succeeds, so `self.mode` (observed
nowhere else) is left unchanged and the line is skipped. -/
def excellonLine (inch : Bool) (toolList defTools : List (String × ℚ)) (div : ℚ)
    (zeropadto : Nat) (st : ExcParseState) (line : String) : Except ExcErr ExcParseState :=
  if matchFormat line then .ok st
  else if line = "G90" ∨ line = "G91" then .ok st
  else if matchToolMode line then .ok st
  else if line.toList.take 6 = ['M', 'E', 'T', 'R', 'I', 'C'] then
    if inch then .error .unitsMismatch else .ok st
  else if line.toList.take 3 = ['T', '0', '0'] then .ok st
  else if line.toList.take 1 = [';'] then .ok st
  else
    match matchXZsup line with
    | some lz => .ok { st with sup := !lz }
    | none =>
        match (matchXtdef line).orElse (fun _ => matchXtdef2 line) with
        | some td => excToolDef st td.1 td.2
        | none =>
            match matchXtool line with
            | some tn => excToolChange toolList defTools st tn
            | none =>
                match matchXYdraw line with
                | some xy =>
                    (match xln2tenthou1 st.sup zeropadto div xy.1 with
                     | none => .error (.valueError (String.mk xy.1))
                     | some xv =>
                         match xln2tenthou1 st.sup zeropadto div xy.2 with
                         | none => .error (.valueError (String.mk xy.2))
                         | some yv => excPlunge st xv yv)
                | none =>
                    match matchXdraw line with
                    | some xs =>
                        (match xln2tenthou1 st.sup zeropadto div xs with
                         | none => .error (.valueError (String.mk xs))
                         | some xv => excPlunge st xv st.lasty)
                    | none =>
                        match matchYdraw line with
                        | some ys =>
                            (match xln2tenthou1 st.sup zeropadto div ys with
                             | none => .error (.valueError (String.mk ys))
                             | some yv => excPlunge st st.lastx yv)
                        | none =>
                            if line = "%" ∨ line = "M30" ∨ line = "M48" ∨ line = "M72" then .ok st
                            else .error (.uninterpretable line)

/-- Initial state of the `ExcellonParser.parse` loop: no tool selected,
leading zeros suppressed by default, absolute mode, last position 0. -/
def excParseInit : ExcParseState :=
  ⟨none, true, "Absolute", 0, 0, [], []⟩

/-! ## jobs.py: rotateJob and fixcoordinates -/

/-- One Gerber layer of a Job: its command stream and the list of global
aperture codes it uses (`GerberParser.commands` / `.apertures`). -/
structure GLayer where
  cmds : List TCmd
  aps : List Nat
deriving DecidableEq

/-- The Job data `rotateJob` reads and rebuilds: extents, Gerber layers,
and the per-tool drill plunges. -/
structure GJob where
  minx : Int
  miny : Int
  maxx : Int
  maxy : Int
  layers : List GLayer
  drills : List (String × List (Int × Int))
deriving DecidableEq

/-- The command transformation of one 90° pass of `jobs.rotateJob`:
draw tuples get `(x,y) → (-(y-miny)+minx+offset, (x-minx)+miny)` (after
`int()` conversion), circular tuples additionally swap (I,J), negating J
when signed; G-codes and `%` directives are copied; D-codes below 10 are
copied and other D-codes are rewritten through the `ToolChangeReplace`
map `tcr` when present. -/
def rotCmd (minx miny offset : Int) (tcr : Nat → Option Nat) : TCmd → TCmd
  | .draw x y d =>
      let xi := pyTrunc x
      let yi := pyTrunc y
      .draw (.pint (-(yi - miny) + minx + offset)) (.pint ((xi - minx) + miny)) d
  | .cdraw x y i j d s =>
      let xi := pyTrunc x
      let yi := pyTrunc y
      let ii := pyTrunc i
      let jj := pyTrunc j
      let nx : Int := -(yi - miny) + minx + offset
      let ny : Int := (xi - minx) + miny
      if s then .cdraw (.pint nx) (.pint ny) (.pint (-jj)) (.pint ii) d s
      else .cdraw (.pint nx) (.pint ny) (.pint jj) (.pint ii) d s
  | .gcode s => .gcode s
  | .pct s => .pct s
  | .dcode n =>
      if n < 10 then .dcode n
      else
        match tcr n with
        | some m => .dcode m
        | none => .dcode n

/-- `rotateJob` resets each layer's aperture list and re-collects the
(possibly replaced) D-codes at or above 10 from the command stream. -/
def rotAps (tcr : Nat → Option Nat) (cmds : List TCmd) : List Nat :=
  cmds.filterMap (fun c =>
    match c with
    | .dcode n =>
        if n < 10 then none
        else
          match tcr n with
          | some m => some m
          | none => some n
    | _ => none)

/-- The drill plunge transformation of one 90° pass of `jobs.rotateJob`:
scale 2.4-format data up by 10, rotate like the Gerber data, and round
back down to 2.4 format. -/
def rotDrill (minx miny offset : Int) (p : Int × Int) : Int × Int :=
  (pyRound (((-(10 * p.2 - miny) + minx + offset : Int) : ℚ) / 10),
   pyRound ((((10 * p.1 - minx) + miny : Int) : ℚ) / 10))

/-- One 90° pass of `jobs.rotateJob`.  The aperture-table rebuild is
abstracted by the `ToolChangeReplace` map `tcr : code → replacement`,
since the interning of rotated apertures only renumbers codes.  The new
extents swap width and height about the fixed lower-left corner. -/
def rotateJob90 (tcr : Nat → Option Nat) (job : GJob) : GJob :=
  let offset := job.maxy - job.miny
  { minx := job.minx
    miny := job.miny
    maxx := job.minx + job.maxy - job.miny
    maxy := job.miny + job.maxx - job.minx
    layers := job.layers.map (fun L =>
      ⟨L.cmds.map (rotCmd job.minx job.miny offset tcr), rotAps tcr L.cmds⟩)
    drills := job.drills.map (fun e => (e.1, e.2.map (rotDrill job.minx job.miny offset))) }

/-- Number of tuple (draw or circular-draw) commands in a stream. -/
def countTuples (cmds : List TCmd) : Nat :=
  cmds.countP (fun c =>
    match c with
    | .draw _ _ _ => true
    | .cdraw _ _ _ _ _ _ => true
    | _ => false)

/-- The Gerber-command shift of `Job.fixcoordinates`: tuples whose first
two members are `int`s get the integer shifts added; other commands are
unchanged. -/
def fixGerberCmd (xs ys : Int) : TCmd → TCmd
  | .draw x y d =>
      (match x, y with
       | .pint a, .pint b => .draw (.pint (a + xs)) (.pint (b + ys)) d
       | _, _ => .draw x y d)
  | .cdraw x y i j d s =>
      (match x, y with
       | .pint a, .pint b => .cdraw (.pint (a + xs)) (.pint (b + ys)) i j d s
       | _, _ => .cdraw x y i j d s)
  | c => c

/-- The Excellon shift of `Job.fixcoordinates`: a plunge whose members
are `int`s gets `x_shift / 10` and `y_shift / 10` added — Python 3 true
division, so the result is a float. -/
def fixDrill (xs ys : Int) (p : PyNum × PyNum) : PyNum × PyNum :=
  match p with
  | (.pint a, .pint b) =>
      (.pfloat ((a : ℚ) + (xs : ℚ) / 10), .pfloat ((b : ℚ) + (ys : ℚ) / 10))
  | q => q

/-- The Job data `fixcoordinates` mutates: extents, per-layer command
streams, and drill plunges (as Python numbers, since the shift can
produce floats). -/
structure PJob where
  minx : Int
  miny : Int
  maxx : Int
  maxy : Int
  layers : List (List TCmd)
  drills : List (String × List (PyNum × PyNum))
deriving DecidableEq

/-- `Job.fixcoordinates(x_shift, y_shift)`.  The source iterates
`self.commands`, an attribute `Job.__init__` never defines; it is
modelled as the job's per-layer Gerber command streams, which is what
the loop body manipulates. -/
def fixcoordinates (xs ys : Int) (job : PJob) : PJob :=
  { minx := job.minx + xs
    maxx := job.maxx + xs
    miny := job.miny + ys
    maxy := job.maxy + ys
    layers := job.layers.map (List.map (fixGerberCmd xs ys))
    drills := job.drills.map (fun e => (e.1, e.2.map (fixDrill xs ys))) }

/-! ## Evaluation lemmas for pyRound -/

theorem pyRound_low (q : ℚ) (n : Int) (h0 : (n : ℚ) ≤ q) (h1 : q < (n : ℚ) + 1/2) :
    pyRound q = n := by
  have hf : ⌊q⌋ = n := Int.floor_eq_iff.mpr ⟨h0, by linarith⟩
  simp only [pyRound, hf]
  rw [if_pos (show q - (n : ℚ) < 1/2 by linarith)]

theorem pyRound_high (q : ℚ) (n : Int) (h0 : (n : ℚ) + 1/2 < q) (h1 : q ≤ (n : ℚ) + 1) :
    pyRound q = n + 1 := by
  rcases eq_or_lt_of_le h1 with heq | hlt
  · have hf : ⌊q⌋ = n + 1 := Int.floor_eq_iff.mpr ⟨by push_cast; linarith, by push_cast; linarith⟩
    simp only [pyRound, hf]
    rw [if_pos (show q - ((n + 1 : Int) : ℚ) < 1/2 by push_cast; linarith)]
  · have hf : ⌊q⌋ = n := Int.floor_eq_iff.mpr ⟨by linarith, by linarith⟩
    simp only [pyRound, hf]
    rw [if_neg (show ¬(q - (n : ℚ) < 1/2) by linarith),
      if_pos (show 1/2 < q - (n : ℚ) by linarith)]

set_option maxRecDepth 40000

/-! ## C1: four 90 degree rotations -/

theorem countTuples_map_rot (a b c : Int) (tcr : Nat → Option Nat) (l : List TCmd) :
    countTuples (l.map (rotCmd a b c tcr)) = countTuples l := by
  unfold countTuples
  rw [List.countP_map]
  apply List.countP_congr
  intro cmd _
  cases cmd with
  | draw x y d => simp [rotCmd, Function.comp]
  | cdraw x y i j d s => cases s <;> simp [rotCmd, Function.comp]
  | gcode s => simp [rotCmd, Function.comp]
  | pct s => simp [rotCmd, Function.comp]
  | dcode n =>
      by_cases h : n < 10
      · simp [rotCmd, Function.comp, h]
      · cases htcr : tcr n <;> simp [rotCmd, Function.comp, h, htcr]

/-- C1: rotating a job four successive times by 90 degrees (for any
aperture-code renumbering maps chosen by the global table on each pass)
reproduces the original extents exactly and the original per-layer count
of tuple draw commands exactly. -/
theorem C1_rotate_four_roundtrip (t1 t2 t3 t4 : Nat → Option Nat) (job : GJob) :
    (rotateJob90 t4 (rotateJob90 t3 (rotateJob90 t2 (rotateJob90 t1 job)))).minx = job.minx ∧
    (rotateJob90 t4 (rotateJob90 t3 (rotateJob90 t2 (rotateJob90 t1 job)))).miny = job.miny ∧
    (rotateJob90 t4 (rotateJob90 t3 (rotateJob90 t2 (rotateJob90 t1 job)))).maxx = job.maxx ∧
    (rotateJob90 t4 (rotateJob90 t3 (rotateJob90 t2 (rotateJob90 t1 job)))).maxy = job.maxy ∧
    (rotateJob90 t4 (rotateJob90 t3 (rotateJob90 t2 (rotateJob90 t1 job)))).layers.map
        (fun L => countTuples L.cmds)
      = job.layers.map (fun L => countTuples L.cmds) := by
  refine ⟨by simp [rotateJob90], by simp [rotateJob90], by simp [rotateJob90],
    by simp [rotateJob90], ?_⟩
  simp only [rotateJob90, List.map_map]
  apply List.map_congr_left
  intro L _
  simp only [Function.comp]
  rw [countTuples_map_rot, countTuples_map_rot, countTuples_map_rot, countTuples_map_rot]

/-! ## C2: trim idempotence -/

theorem excKeep_trim (inch : Bool) (st : ExcState) :
    excKeep inch (excTrim inch st) = excKeep inch st := rfl

theorem excState_ext (u v : ExcState) (h1 : u.xcommands = v.xcommands)
    (h2 : u.xdiam = v.xdiam) (h3 : u.minx = v.minx) (h4 : u.miny = v.miny)
    (h5 : u.maxx = v.maxx) (h6 : u.maxy = v.maxy) : u = v := by
  cases u
  cases v
  simp_all

theorem filterMap_eq_self_of {α : Type} (f : α → Option α) (l : List α)
    (h : ∀ e ∈ l, f e = some e) : l.filterMap f = l := by
  induction l with
  | nil => rfl
  | cons a t ih =>
      rw [List.filterMap_cons, h a (by simp)]
      rw [ih (fun e he => h e (by simp [he]))]

theorem filterMap_eq_nil_of {α β : Type} (f : α → Option β) (l : List α)
    (h : ∀ e ∈ l, f e = none) : l.filterMap f = [] := by
  induction l with
  | nil => rfl
  | cons a t ih =>
      rw [List.filterMap_cons, h a (by simp)]
      exact ih (fun e he => h e (by simp [he]))

theorem mem_excTrim_xcommands (inch : Bool) (st : ExcState) (e : String × List (Int × Int))
    (he : e ∈ (excTrim inch st).xcommands) :
    ∃ ps, (e.1, ps) ∈ st.xcommands ∧ e.2 = ps.filter (excKeep inch st) ∧ e.2 ≠ [] := by
  simp only [excTrim, List.mem_filterMap] at he
  obtain ⟨a, ha, hfa⟩ := he
  by_cases hn : a.2.filter (excKeep inch st) = []
  · rw [if_pos hn] at hfa
    exact Option.noConfusion hfa
  · rw [if_neg hn] at hfa
    obtain rfl : (a.1, a.2.filter (excKeep inch st)) = e := Option.some.inj hfa
    exact ⟨a.2, by simpa using ha, rfl, hn⟩

/-- C2 (amended): `ExcellonParser.trim` is idempotent — re-trimming with
the same extents changes neither the plunge map nor the diameter map. -/
theorem C2_excellon_trim_idempotent (inch : Bool) (st : ExcState) :
    excTrim inch (excTrim inch st) = excTrim inch st := by
  have hfix : ∀ e ∈ (excTrim inch st).xcommands,
      e.2.filter (excKeep inch (excTrim inch st)) = e.2 := by
    intro e he
    obtain ⟨ps, _, hfe, _⟩ := mem_excTrim_xcommands inch st e he
    rw [excKeep_trim, hfe, List.filter_filter]
    apply List.filter_congr
    intro x _
    simp
  have hdead : excDead inch (excTrim inch st) = [] := by
    unfold excDead
    apply filterMap_eq_nil_of
    intro e he
    obtain ⟨ps, _, _, hne⟩ := mem_excTrim_xcommands inch st e he
    rw [hfix e he, if_neg hne]
  apply excState_ext
  · show (excTrim inch st).xcommands.filterMap _ = (excTrim inch st).xcommands
    apply filterMap_eq_self_of
    intro e he
    obtain ⟨ps, _, _, hne⟩ := mem_excTrim_xcommands inch st e he
    rw [hfix e he, if_neg hne]
  · show (excTrim inch st).xdiam.filter _ = (excTrim inch st).xdiam
    apply List.filter_eq_self.mpr
    intro a _
    rw [hdead]
    simp
  · rfl
  · rfl
  · rfl
  · rfl

def c2Env : TrimEnv := ⟨0, 0, 100, 100⟩

def c2Cmds : List TCmd := [.draw (.pint 50) (.pint 50) 2, .draw (.pint 150) (.pint 50) 1]

def c2First : TrimState := gerberTrim true c2Env [] 11 [] c2Cmds

def c2Second : TrimState := gerberTrim true c2Env c2First.gat c2First.fresh c2First.aps c2First.newcmds

/-- C2 (counterexample): Gerber trim is not idempotent.  Clipping an
exposure-on draw that leaves the box emits an off-move to the original
out-of-box destination; a second trim with the same extents drops that
off-move, changing the command stream. -/
theorem C2_gerber_counterexample :
    c2First.newcmds
        = [.draw (.pint 50) (.pint 50) 2, .draw (.pint 100) (.pint 50) 1,
           .draw (.pint 150) (.pint 50) 2] ∧
    c2Second.newcmds
        = [.draw (.pint 50) (.pint 50) 2, .draw (.pint 100) (.pint 50) 1] ∧
    c2Second.newcmds ≠ c2First.newcmds := by
  refine ⟨by with_unfolding_all rfl, by with_unfolding_all rfl, ?_⟩
  intro h
  rw [show c2Second.newcmds = [.draw (.pint 50) (.pint 50) 2, .draw (.pint 100) (.pint 50) 1]
      from by with_unfolding_all rfl,
    show c2First.newcmds = [.draw (.pint 50) (.pint 50) 2, .draw (.pint 100) (.pint 50) 1,
      .draw (.pint 150) (.pint 50) 2] from by with_unfolding_all rfl] at h
  simp at h

/-! ## C4: integer coordinates invariant -/

/-- C4 (code evaluation): `fixcoordinates` applied with shift (10, 10)
to a drill plunge at integer position (100, 100) stores the Python
floats (101.0, 101.0) — `x_shift / 10` is true division — so a stored
command no longer holds integers. -/
theorem C4_fixcoordinates_stores_float :
    fixDrill 10 10 (.pint 100, .pint 100) = (.pfloat 101, .pfloat 101) ∧
    (PyNum.pfloat 101).isInt = false := by
  exact ⟨by with_unfolding_all rfl, rfl⟩

/-! ## C5: plunge before tool selection -/

/-- `10.0 ** (4 - decimals)`, the divisor applied to plunge strings. -/
def excDivisor (decimals : Nat) : ℚ := (10 : ℚ) ^ ((4 : Int) - decimals)

/-- `2 + decimals`, the trailing-zero padding width. -/
def excZeroPadTo (decimals : Nat) : Nat := 2 + decimals

/-- The parser state after `INCH,LZ`: leading zeros included, so leading
zero suppression is off. -/
def c5State : ExcParseState := { excParseInit with sup := false }

theorem excDivisor_four : excDivisor 4 = 1 := by norm_num [excDivisor]

/-- C5 (code evaluation): in a 2.4-format inch file, after `INCH,LZ` and
with no prior tool selection, the line `X0250Y0250` is rejected as an
uninterpretable line (this fork's plunge pattern requires a decimal
point in both ordinates), not with the plunge-without-tool-selection
error; the X-only shorthand `X0250` does raise the
plunge-without-tool-selection error. -/
theorem C5_integer_plunge_line_uninterpretable :
    excellonLine true [] [] (excDivisor 4) (excZeroPadTo 4) excParseInit "INCH,LZ"
        = .ok c5State ∧
    excellonLine true [] [] (excDivisor 4) (excZeroPadTo 4) c5State "X0250Y0250"
        = .error (.uninterpretable "X0250Y0250") ∧
    excellonLine true [] [] (excDivisor 4) (excZeroPadTo 4) c5State "X0250Y0250"
        ≠ .error .plungeNoTool ∧
    excellonLine true [] [] (excDivisor 4) (excZeroPadTo 4) c5State "X0250"
        = .error .plungeNoTool := by
  rw [excDivisor_four]
  exact ⟨by decide, by decide, by decide, by decide⟩

/-! ## C3: clipped rectangular flash -/

def c3Env : TrimEnv := ⟨0, 0, 100000, 100000⟩

def c3Gat : List (Nat × Aperture) := [(10, ⟨true, 1/50, 1/50⟩)]

def c3Cmds : List TCmd := [.dcode 10, .draw (.pint 99500) (.pint 50000) 3]

def c3Out : TrimState := gerberTrim true c3Env c3Gat 11 [] c3Cmds

/-- C3 (code evaluation): a 0.02-inch-square rectangular aperture flashed
at (99500, 50000) against the box (0,0)-(100000,100000) has footprint
intersection (98500, 49000, 100000, 51000), whose smaller dimension 1500
is above the 10-unit threshold; trim emits the aperture switch, flash and
switch back — but the flash lands at `rectCenter` = (750.0, 1000.0), the
half-width/half-height pair, not at the intersection rectangle's center
point (99250, 50000).  A 5-unit-wide overlap (flash at (100995, 50000))
is dropped entirely, as the claim's threshold part states. -/
theorem C3_flash_not_recentered :
    intersectExtents (rectangleAsRect true ⟨true, 1/50, 1/50⟩ 99500 50000)
        ⟨0, 0, 100000, 100000⟩ = some ⟨98500, 49000, 100000, 51000⟩ ∧
    c3Out.newcmds = [.dcode 10, .dcode 11, .draw (.pfloat 750) (.pfloat 1000) 3, .dcode 10] ∧
    rectCenter ⟨98500, 49000, 100000, 51000⟩ = ((750 : ℚ), (1000 : ℚ)) ∧
    specRectCenter ⟨98500, 49000, 100000, 51000⟩ = ((99250 : ℚ), (50000 : ℚ)) ∧
    rectCenter ⟨98500, 49000, 100000, 51000⟩ ≠ specRectCenter ⟨98500, 49000, 100000, 51000⟩ ∧
    (gerberTrim true c3Env c3Gat 11 [] [.dcode 10, .draw (.pint 100995) (.pint 50000) 3]).newcmds
        = [.dcode 10] := by
  refine ⟨by with_unfolding_all rfl, by with_unfolding_all rfl, ?_, ?_, ?_,
    by with_unfolding_all rfl⟩
  · norm_num [rectCenter, rectWidth, rectHeight]
  · norm_num [specRectCenter]
  · norm_num [rectCenter, specRectCenter, rectWidth, rectHeight, Prod.ext_iff]

/-! ## C7: symmetry of segmentXbox -/

theorem segmentSlope_comm (p1 p2 : ℚ × ℚ) : segmentSlope p2 p1 = segmentSlope p1 p2 := by
  unfold segmentSlope
  rw [← neg_sub p2.2 p1.2, ← neg_sub p2.1 p1.1, neg_div_neg_eq]

theorem segmentSlope_mul (p1 p2 : ℚ × ℚ) (h : p1.1 ≠ p2.1) :
    segmentSlope p1 p2 * (p2.1 - p1.1) = p2.2 - p1.2 := by
  unfold segmentSlope
  rw [div_mul_cancel₀]
  exact sub_ne_zero.mpr (Ne.symm h)

theorem segXsegCand_swap (p1 p2 q1 q2 : ℚ × ℚ) :
    segXsegCand p2 p1 q1 q2 = segXsegCand p1 p2 q1 q2 := by
  unfold segXsegCand isSegmentVertical
  by_cases hp : p1.1 = p2.1
  · by_cases hq : q1.1 = q2.1
    · rw [if_pos hp.symm, if_pos hp, if_pos hq, if_pos hq]
    · rw [if_pos hp.symm, if_pos hp, if_neg hq, if_neg hq, hp]
  · have hp' : ¬p2.1 = p1.1 := fun h => hp h.symm
    have hm := segmentSlope_mul p1 p2 hp
    by_cases hq : q1.1 = q2.1
    · rw [if_neg hp', if_neg hp, if_pos hq, if_pos hq, segmentSlope_comm]
      have : segmentSlope p1 p2 * (q1.1 - p2.1) + p2.2
          = segmentSlope p1 p2 * (q1.1 - p1.1) + p1.2 := by
        have : segmentSlope p1 p2 * (q1.1 - p2.1) + p2.2
            - (segmentSlope p1 p2 * (q1.1 - p1.1) + p1.2)
            = -(segmentSlope p1 p2 * (p2.1 - p1.1)) + (p2.2 - p1.2) := by ring
        have h2 : segmentSlope p1 p2 * (q1.1 - p2.1) + p2.2
            - (segmentSlope p1 p2 * (q1.1 - p1.1) + p1.2) = 0 := by
          rw [this, hm]; ring
        linarith
      rw [this]
    · rw [if_neg hp', if_neg hp, if_neg hq, if_neg hq, segmentSlope_comm]
      by_cases he : segmentSlope p1 p2 = segmentSlope q1 q2
      · rw [if_pos he, if_pos he]
      · rw [if_neg he, if_neg he]
        have hx : p2.1 * segmentSlope p1 p2 - p2.2
            = p1.1 * segmentSlope p1 p2 - p1.2 := by
          have h2 : p2.1 * segmentSlope p1 p2 - p2.2
              - (p1.1 * segmentSlope p1 p2 - p1.2)
              = segmentSlope p1 p2 * (p2.1 - p1.1) - (p2.2 - p1.2) := by ring
          have h3 : p2.1 * segmentSlope p1 p2 - p2.2
              - (p1.1 * segmentSlope p1 p2 - p1.2) = 0 := by rw [h2, hm]; ring
          linarith
        have hy : ∀ x : ℚ, segmentSlope p1 p2 * (x - p2.1) + p2.2
            = segmentSlope p1 p2 * (x - p1.1) + p1.2 := by
          intro x
          have h2 : segmentSlope p1 p2 * (x - p2.1) + p2.2
              - (segmentSlope p1 p2 * (x - p1.1) + p1.2)
              = -(segmentSlope p1 p2 * (p2.1 - p1.1)) + (p2.2 - p1.2) := by ring
          have h3 : segmentSlope p1 p2 * (x - p2.1) + p2.2
              - (segmentSlope p1 p2 * (x - p1.1) + p1.2) = 0 := by rw [h2, hm]; ring
          linarith
        simp only [hx, hy]

theorem isPointOnSegment_swap (pt p1 p2 : ℚ × ℚ) :
    isPointOnSegment pt p2 p1 ↔ isPointOnSegment pt p1 p2 := by
  unfold isPointOnSegment
  by_cases hp : p1.1 = p2.1
  · rw [if_pos hp.symm, if_pos hp, mul_comm]
  · rw [if_neg (fun h => hp h.symm), if_neg hp, mul_comm]

theorem segmentXsegment1pt_swap (p1 p2 q1 q2 : ℚ × ℚ) :
    segmentXsegment1pt p2 p1 q1 q2 = segmentXsegment1pt p1 p2 q1 q2 := by
  unfold segmentXsegment1pt
  rw [segXsegCand_swap]
  cases segXsegCand p1 p2 q1 q2 with
  | none => rfl
  | some e =>
      simp only
      rw [if_congr (and_congr (isPointOnSegment_swap e p1 p2) Iff.rfl) rfl rfl]

theorem addCheck_swap (p1 p2 : ℚ × ℚ) (one : Bool) (c1 c2 : ℚ × ℚ) (acc) :
    addCheck p2 p1 one c1 c2 acc = addCheck p1 p2 one c1 c2 acc := by
  unfold addCheck
  rw [segmentXsegment1pt_swap]

theorem canonicalizeExtents_comm (c1 c2 : ℚ × ℚ) :
    canonicalizeExtents c2 c1 = canonicalizeExtents c1 c2 := by
  unfold canonicalizeExtents
  rw [min_comm c2.1 c1.1, min_comm c2.2 c1.2, max_comm c2.1 c1.1, max_comm c2.2 c1.2]

theorem segmentXbox_swap_endpoints (p1 p2 c1 c2 : ℚ × ℚ) :
    segmentXbox p2 p1 c1 c2 = segmentXbox p1 p2 c1 c2 := by
  unfold segmentXbox
  simp only [addCheck_swap, Bool.xor_comm]

theorem segmentXbox_swap_corners (p1 p2 c1 c2 : ℚ × ℚ) :
    segmentXbox p1 p2 c2 c1 = segmentXbox p1 p2 c1 c2 := by
  unfold segmentXbox
  simp only [canonicalizeExtents_comm]

/-- Integer point as a rational point (coordinates in the program are
integers in the internal resolution). -/
def iPt (p : Int × Int) : ℚ × ℚ := ((p.1 : ℚ), (p.2 : ℚ))

/-- C7: `segmentXbox` returns the same point list when the two segment
endpoints are exchanged and when the two box corners are exchanged. -/
theorem C7_segmentXbox_symmetric (p1 p2 c1 c2 : Int × Int) :
    segmentXbox (iPt p2) (iPt p1) (iPt c1) (iPt c2)
        = segmentXbox (iPt p1) (iPt p2) (iPt c1) (iPt c2) ∧
    segmentXbox (iPt p1) (iPt p2) (iPt c2) (iPt c1)
        = segmentXbox (iPt p1) (iPt p2) (iPt c1) (iPt c2) :=
  ⟨segmentXbox_swap_endpoints _ _ _ _, segmentXbox_swap_corners _ _ _ _⟩

/-! ## C8: both endpoints outside, segment crosses the box -/

/-- C8: when an exposure-on draw's previous point is outside the borders
(`lastInBorders` false), its destination is outside the borders, and the
segment crosses the box in two points, trim replaces the command by
exactly: an off-move to the first crossing, an on-draw to the second
crossing, and an off-move to the original destination. -/
theorem C8_both_outside_crossing (inch : Bool) (env : TrimEnv) (st : TrimState)
    (x y : PyNum) (q1 q2 : Int × Int)
    (hlast : st.lastInB = false)
    (hnew : ¬gInBorders env x.q y.q)
    (hsxb : segmentXbox (st.lastx.q, st.lasty.q) (x.q, y.q)
        ((env.minx : ℚ), (env.miny : ℚ)) ((env.maxx : ℚ), (env.maxy : ℚ)) = [q1, q2]) :
    trimStep inch env st (.draw x y 1)
      = { st with
          newcmds := st.newcmds ++
            [.draw (.pint q1.1) (.pint q1.2) 2, .draw (.pint q2.1) (.pint q2.2) 1,
             .draw x y 2],
          lastx := x, lasty := y, lastInB := false } := by
  have hni : (if gInBorders env x.q y.q then true else false) = false := if_neg hnew
  simp only [trimStep]
  rw [if_neg (by norm_num : ¬(1 : Int) = 3), if_neg (by norm_num : ¬(1 : Int) = 2)]
  simp only [trimLine, hni, hlast, Bool.and_false, Bool.false_eq_true, if_false, hsxb]

def c8St : TrimState := ⟨[], false, .pint (-10), .pint 50, none, [], 11, []⟩

theorem C8_witness :
    c8St.lastInB = false ∧
    ¬gInBorders c2Env (PyNum.pint 150).q (PyNum.pint 50).q ∧
    segmentXbox (c8St.lastx.q, c8St.lasty.q) ((PyNum.pint 150).q, (PyNum.pint 50).q)
        ((c2Env.minx : ℚ), (c2Env.miny : ℚ)) ((c2Env.maxx : ℚ), (c2Env.maxy : ℚ))
        = [(0, 50), (100, 50)] ∧
    trimStep true c2Env c8St (.draw (.pint 150) (.pint 50) 1)
      = { c8St with
          newcmds := [.draw (.pint 0) (.pint 50) 2, .draw (.pint 100) (.pint 50) 1,
            .draw (.pint 150) (.pint 50) 2],
          lastx := .pint 150, lasty := .pint 50, lastInB := false } := by
  have h1 : c8St.lastInB = false := rfl
  have h2 : ¬gInBorders c2Env (PyNum.pint 150).q (PyNum.pint 50).q := by
    norm_num [gInBorders, PyNum.q, c2Env]
  have h3 : segmentXbox (c8St.lastx.q, c8St.lasty.q) ((PyNum.pint 150).q, (PyNum.pint 50).q)
      ((c2Env.minx : ℚ), (c2Env.miny : ℚ)) ((c2Env.maxx : ℚ), (c2Env.maxy : ℚ))
      = [(0, 50), (100, 50)] := by with_unfolding_all rfl
  exact ⟨h1, h2, h3, C8_both_outside_crossing true c2Env c8St _ _ _ _ h1 h2 h3⟩

/-! ## C10: boundary-inclusive membership -/

/-- A point exactly on the boundary of the extents rectangle: one
ordinate at its bound, the other within range. -/
def onEdge (minx miny maxx maxy : Int) (x y : ℚ) : Prop :=
  ((x = (minx : ℚ) ∨ x = (maxx : ℚ)) ∧ (miny : ℚ) ≤ y ∧ y ≤ (maxy : ℚ)) ∨
  ((y = (miny : ℚ) ∨ y = (maxy : ℚ)) ∧ (minx : ℚ) ≤ x ∧ x ≤ (maxx : ℚ))

theorem onEdge_mem {minx miny maxx maxy : Int} {x y : ℚ}
    (hx : minx ≤ maxx) (hy : miny ≤ maxy)
    (h : onEdge minx miny maxx maxy x y) :
    x ≥ (minx : ℚ) ∧ x ≤ (maxx : ℚ) ∧ y ≥ (miny : ℚ) ∧ y ≤ (maxy : ℚ) := by
  have hx' : (minx : ℚ) ≤ (maxx : ℚ) := Int.cast_le.mpr hx
  have hy' : (miny : ℚ) ≤ (maxy : ℚ) := Int.cast_le.mpr hy
  rcases h with ⟨hor, h1, h2⟩ | ⟨hor, h1, h2⟩
  · rcases hor with he | he <;>
      exact ⟨by rw [he] <;> linarith, by rw [he] <;> linarith, h1, h2⟩
  · rcases hor with he | he <;>
      exact ⟨h1, h2, by rw [he] <;> linarith, by rw [he] <;> linarith⟩

/-- C10: the trim membership test is boundary-inclusive — an
exposure-off move to a boundary point is kept, a non-rectangular
aperture flash at a boundary point is kept, and a drill plunge whose
scaled position is a boundary point survives Excellon trim. -/
theorem C10_borders_boundary_inclusive :
    (∀ (inch : Bool) (env : TrimEnv) (st : TrimState) (x y : PyNum),
      env.minx ≤ env.maxx → env.miny ≤ env.maxy →
      onEdge env.minx env.miny env.maxx env.maxy x.q y.q →
      trimStep inch env st (.draw x y 2)
        = { st with
            newcmds := st.newcmds ++ [.draw x y 2],
            lastx := x, lasty := y, lastInB := true }) ∧
    (∀ (inch : Bool) (env : TrimEnv) (st : TrimState) (x y : PyNum) (c : Nat) (ap : Aperture),
      env.minx ≤ env.maxx → env.miny ≤ env.maxy →
      st.lastAp = some (c, ap) → ap.rect = false →
      onEdge env.minx env.miny env.maxx env.maxy x.q y.q →
      trimStep inch env st (.draw x y 3)
        = { st with
            newcmds := st.newcmds ++ [.draw x y 3],
            lastx := x, lasty := y, lastInB := true }) ∧
    (∀ (st : ExcState) (t : String) (ps : List (Int × Int)) (p : Int × Int),
      st.minx ≤ st.maxx → st.miny ≤ st.maxy →
      (t, ps) ∈ st.xcommands → p ∈ ps →
      onEdge st.minx st.miny st.maxx st.maxy (10 * (p.1 : ℚ)) (10 * (p.2 : ℚ)) →
      excKeep true st p = true ∧ p ∈ ps.filter (excKeep true st) ∧
      (t, ps.filter (excKeep true st)) ∈ (excTrim true st).xcommands) := by
  refine ⟨?_, ?_, ?_⟩
  · intro inch env st x y hx hy hb
    have hin : gInBorders env x.q y.q := onEdge_mem hx hy hb
    have hbi : (if gInBorders env x.q y.q then true else false) = true := if_pos hin
    simp only [trimStep, hbi]
    norm_num
  · intro inch env st x y c ap hx hy hap hrect hb
    have hin : gInBorders env x.q y.q := onEdge_mem hx hy hb
    have hbi : (if gInBorders env x.q y.q then true else false) = true := if_pos hin
    simp only [trimStep, trimFlash, hap, hrect, hbi]
    rw [if_pos hin]
    norm_num
  · intro st t ps p hx hy hmem hp hb
    have hin : excInBorders st (10 * (p.1 : ℚ)) (10 * (p.2 : ℚ)) := onEdge_mem hx hy hb
    have hkeep : excKeep true st p = true := by
      simp only [excKeep, if_true]
      exact if_pos hin
    have hpf : p ∈ ps.filter (excKeep true st) := List.mem_filter.mpr ⟨hp, hkeep⟩
    have hne : ps.filter (excKeep true st) ≠ [] := by
      intro h
      rw [h] at hpf
      exact List.not_mem_nil p hpf
    refine ⟨hkeep, hpf, ?_⟩
    simp only [excTrim, List.mem_filterMap]
    exact ⟨(t, ps), hmem, by rw [if_neg hne]⟩

def c10St : TrimState := ⟨[], true, .pint 0, .pint 0, some (5, ⟨false, 1/100, 1/100⟩), [], 11, []⟩

def c10Exc : ExcState := ⟨[("T01", [(100, 5), (999, 999)])], [("T01", 1/50)], 0, 0, 1000, 1000⟩

theorem C10_witness :
    (trimStep true c2Env c10St (.draw (.pint 100) (.pint 50) 2)
      = { c10St with
          newcmds := [.draw (.pint 100) (.pint 50) 2],
          lastx := .pint 100, lasty := .pint 50, lastInB := true }) ∧
    (trimStep true c2Env c10St (.draw (.pint 100) (.pint 50) 3)
      = { c10St with
          newcmds := [.draw (.pint 100) (.pint 50) 3],
          lastx := .pint 100, lasty := .pint 50, lastInB := true }) ∧
    (excKeep true c10Exc (100, 5) = true ∧
      (100, 5) ∈ ([(100, 5), (999, 999)] : List (Int × Int)).filter (excKeep true c10Exc) ∧
      ("T01", ([(100, 5), (999, 999)] : List (Int × Int)).filter (excKeep true c10Exc))
        ∈ (excTrim true c10Exc).xcommands) := by
  have hedge : onEdge c2Env.minx c2Env.miny c2Env.maxx c2Env.maxy
      (PyNum.pint 100).q (PyNum.pint 50).q := by
    norm_num [onEdge, c2Env, PyNum.q]
  have hedge2 : onEdge c10Exc.minx c10Exc.miny c10Exc.maxx c10Exc.maxy
      (10 * ((100 : Int) : ℚ)) (10 * ((5 : Int) : ℚ)) := by
    norm_num [onEdge, c10Exc]
  refine ⟨?_, ?_, ?_⟩
  · exact C10_borders_boundary_inclusive.1 true c2Env c10St _ _ (by norm_num [c2Env])
      (by norm_num [c2Env]) hedge
  · exact C10_borders_boundary_inclusive.2.1 true c2Env c10St _ _ 5 ⟨false, 1/100, 1/100⟩
      (by norm_num [c2Env]) (by norm_num [c2Env]) rfl rfl hedge
  · exact C10_borders_boundary_inclusive.2.2 c10Exc "T01" [(100, 5), (999, 999)] (100, 5)
      (by norm_num [c10Exc]) (by norm_num [c10Exc]) (by simp [c10Exc]) (by simp) hedge2

/-! ## Shared lemmas about uniqueify and the side checks (for C6 and C9) -/

theorem mem_uniqAux {α : Type} [DecidableEq α] (l : List α) :
    ∀ (seen : List α) (x : α), x ∈ uniqAux seen l ↔ x ∈ l ∧ x ∉ seen := by
  induction l with
  | nil => intro seen x; simp [uniqAux]
  | cons a t ih =>
      intro seen x
      unfold uniqAux
      by_cases ha : a ∈ seen
      · rw [if_pos ha, ih]
        constructor
        · rintro ⟨hx, hs⟩
          exact ⟨List.mem_cons_of_mem a hx, hs⟩
        · rintro ⟨hx, hs⟩
          rcases List.mem_cons.mp hx with rfl | hx
          · exact absurd ha hs
          · exact ⟨hx, hs⟩
      · rw [if_neg ha]
        rw [List.mem_cons, ih]
        constructor
        · rintro (h | ⟨hx, hs⟩)
          · rw [h]; exact ⟨List.mem_cons_self a t, ha⟩
          · refine ⟨List.mem_cons_of_mem a hx, fun hxs => hs (List.mem_cons_of_mem a hxs)⟩
        · rintro ⟨hx, hs⟩
          rcases List.mem_cons.mp hx with rfl | hx
          · exact Or.inl rfl
          · by_cases hxa : x = a
            · exact Or.inl hxa
            · exact Or.inr ⟨hx, fun hm => by
                rcases List.mem_cons.mp hm with h | h
                · exact hxa h
                · exact hs h⟩

theorem mem_uniqueify {α : Type} [DecidableEq α] (l : List α) (x : α) :
    x ∈ uniqueify l ↔ x ∈ l := by
  unfold uniqueify
  rw [mem_uniqAux]
  simp

theorem nodup_uniqAux {α : Type} [DecidableEq α] (l : List α) :
    ∀ seen : List α, (uniqAux seen l).Nodup := by
  induction l with
  | nil => intro seen; simp [uniqAux]
  | cons a t ih =>
      intro seen
      unfold uniqAux
      by_cases ha : a ∈ seen
      · rw [if_pos ha]; exact ih seen
      · rw [if_neg ha]
        refine List.nodup_cons.mpr ⟨?_, ih (a :: seen)⟩
        intro hmem
        exact ((mem_uniqAux t (a :: seen) a).mp hmem).2 (List.mem_cons_self a seen)

theorem nodup_uniqueify {α : Type} [DecidableEq α] (l : List α) :
    (uniqueify l).Nodup := nodup_uniqAux l []

theorem nodup_length_le_two {α : Type} {l : List α} (hn : l.Nodup)
    (h3 : ∀ a b c, a ∈ l → b ∈ l → c ∈ l → a = b ∨ a = c ∨ b = c) :
    l.length ≤ 2 := by
  match l with
  | [] => simp
  | [_] => simp
  | [_, _] => simp
  | a :: b :: c :: t =>
      exfalso
      simp only [List.nodup_cons, List.mem_cons] at hn
      rcases h3 a b c (by simp) (by simp) (by simp) with h | h | h
      · exact hn.1 (Or.inl h)
      · exact hn.1 (Or.inr (Or.inl h))
      · exact hn.2.1 (Or.inl h)

theorem seg1pt_vv {p1 p2 q1 q2 : ℚ × ℚ} (hp : p1.1 = p2.1) (hq : q1.1 = q2.1) :
    segmentXsegment1pt p1 p2 q1 q2 = none := by
  unfold segmentXsegment1pt segXsegCand isSegmentVertical
  rw [if_pos hp, if_pos hq]

theorem seg1pt_pvert {p1 p2 q1 q2 : ℚ × ℚ} {v : Int × Int}
    (hp : p1.1 = p2.1) (hq : q1.1 ≠ q2.1)
    (h : segmentXsegment1pt p1 p2 q1 q2 = some v) :
    v = roundPoint (p1.1, segmentSlope q1 q2 * (p1.1 - q1.1) + q1.2) ∧
    isPointOnSegment (p1.1, segmentSlope q1 q2 * (p1.1 - q1.1) + q1.2) p1 p2 ∧
    isPointOnSegment (p1.1, segmentSlope q1 q2 * (p1.1 - q1.1) + q1.2) q1 q2 := by
  unfold segmentXsegment1pt segXsegCand isSegmentVertical at h
  rw [if_pos hp, if_neg hq] at h
  simp only at h
  by_cases hmem : isPointOnSegment (p1.1, segmentSlope q1 q2 * (p1.1 - q1.1) + q1.2) p1 p2 ∧
      isPointOnSegment (p1.1, segmentSlope q1 q2 * (p1.1 - q1.1) + q1.2) q1 q2
  · rw [if_pos hmem] at h
    exact ⟨(Option.some.inj h).symm, hmem.1, hmem.2⟩
  · rw [if_neg hmem] at h
    exact Option.noConfusion h

theorem seg1pt_qvert {p1 p2 q1 q2 : ℚ × ℚ} {v : Int × Int}
    (hp : p1.1 ≠ p2.1) (hq : q1.1 = q2.1)
    (h : segmentXsegment1pt p1 p2 q1 q2 = some v) :
    v = roundPoint (q1.1, segmentSlope p1 p2 * (q1.1 - p1.1) + p1.2) ∧
    isPointOnSegment (q1.1, segmentSlope p1 p2 * (q1.1 - p1.1) + p1.2) p1 p2 ∧
    isPointOnSegment (q1.1, segmentSlope p1 p2 * (q1.1 - p1.1) + p1.2) q1 q2 := by
  unfold segmentXsegment1pt segXsegCand isSegmentVertical at h
  rw [if_neg hp, if_pos hq] at h
  simp only at h
  by_cases hmem : isPointOnSegment (q1.1, segmentSlope p1 p2 * (q1.1 - p1.1) + p1.2) p1 p2 ∧
      isPointOnSegment (q1.1, segmentSlope p1 p2 * (q1.1 - p1.1) + p1.2) q1 q2
  · rw [if_pos hmem] at h
    exact ⟨(Option.some.inj h).symm, hmem.1, hmem.2⟩
  · rw [if_neg hmem] at h
    exact Option.noConfusion h

theorem seg1pt_gen {p1 p2 q1 q2 : ℚ × ℚ} {v : Int × Int}
    (hp : p1.1 ≠ p2.1) (hq : q1.1 ≠ q2.1)
    (h : segmentXsegment1pt p1 p2 q1 q2 = some v) :
    segmentSlope p1 p2 ≠ segmentSlope q1 q2 ∧
    v = roundPoint
      ((p1.1 * segmentSlope p1 p2 - p1.2 - q1.1 * segmentSlope q1 q2 + q1.2) /
          (segmentSlope p1 p2 - segmentSlope q1 q2),
        segmentSlope p1 p2 *
            ((p1.1 * segmentSlope p1 p2 - p1.2 - q1.1 * segmentSlope q1 q2 + q1.2) /
                (segmentSlope p1 p2 - segmentSlope q1 q2) - p1.1) + p1.2) ∧
    isPointOnSegment
      ((p1.1 * segmentSlope p1 p2 - p1.2 - q1.1 * segmentSlope q1 q2 + q1.2) /
          (segmentSlope p1 p2 - segmentSlope q1 q2),
        segmentSlope p1 p2 *
            ((p1.1 * segmentSlope p1 p2 - p1.2 - q1.1 * segmentSlope q1 q2 + q1.2) /
                (segmentSlope p1 p2 - segmentSlope q1 q2) - p1.1) + p1.2) p1 p2 ∧
    isPointOnSegment
      ((p1.1 * segmentSlope p1 p2 - p1.2 - q1.1 * segmentSlope q1 q2 + q1.2) /
          (segmentSlope p1 p2 - segmentSlope q1 q2),
        segmentSlope p1 p2 *
            ((p1.1 * segmentSlope p1 p2 - p1.2 - q1.1 * segmentSlope q1 q2 + q1.2) /
                (segmentSlope p1 p2 - segmentSlope q1 q2) - p1.1) + p1.2) q1 q2 := by
  unfold segmentXsegment1pt segXsegCand isSegmentVertical at h
  rw [if_neg hp, if_neg hq] at h
  simp only at h
  by_cases hm : segmentSlope p1 p2 = segmentSlope q1 q2
  · rw [if_pos hm] at h
    exact Option.noConfusion h
  · rw [if_neg hm] at h
    simp only at h
    by_cases hmem : isPointOnSegment
        ((p1.1 * segmentSlope p1 p2 - p1.2 - q1.1 * segmentSlope q1 q2 + q1.2) /
            (segmentSlope p1 p2 - segmentSlope q1 q2),
          segmentSlope p1 p2 *
              ((p1.1 * segmentSlope p1 p2 - p1.2 - q1.1 * segmentSlope q1 q2 + q1.2) /
                  (segmentSlope p1 p2 - segmentSlope q1 q2) - p1.1) + p1.2) p1 p2 ∧
      isPointOnSegment
        ((p1.1 * segmentSlope p1 p2 - p1.2 - q1.1 * segmentSlope q1 q2 + q1.2) /
            (segmentSlope p1 p2 - segmentSlope q1 q2),
          segmentSlope p1 p2 *
              ((p1.1 * segmentSlope p1 p2 - p1.2 - q1.1 * segmentSlope q1 q2 + q1.2) /
                  (segmentSlope p1 p2 - segmentSlope q1 q2) - p1.1) + p1.2) q1 q2
    · rw [if_pos hmem] at h
      exact ⟨hm, (Option.some.inj h).symm, hmem.1, hmem.2⟩
    · rw [if_neg hmem] at h
      exact Option.noConfusion h

theorem roundPoint_intCast (a b : Int) :
    roundPoint ((a : ℚ), (b : ℚ)) = (a, b) := by
  unfold roundPoint
  simp [pyRound_intCast]

theorem seg1pt_parallel {p1 p2 q1 q2 : ℚ × ℚ} (hp : p1.1 ≠ p2.1) (hq : q1.1 ≠ q2.1)
    (hm : segmentSlope p1 p2 = segmentSlope q1 q2) :
    segmentXsegment1pt p1 p2 q1 q2 = none := by
  unfold segmentXsegment1pt segXsegCand isSegmentVertical
  rw [if_neg hp, if_neg hq]
  simp only
  rw [if_pos hm]

/-- The intermediate accumulator `a4` of `geometry.segmentXbox` after the
four side checks. -/
def sxbA4 (pt1 pt2 c1 c2 : ℚ × ℚ) : List (Int × Int) × List (Int × Int) :=
  let rect := canonicalizeExtents c1 c2
  let llpt : ℚ × ℚ := (rect.x0, rect.y0)
  let ulpt : ℚ × ℚ := (rect.x0, rect.y1)
  let urpt : ℚ × ℚ := (rect.x1, rect.y1)
  let lrpt : ℚ × ℚ := (rect.x1, rect.y0)
  let s1 : Bool := if isPointStrictlyInRectangle pt1 rect then true else false
  let s2 : Bool := if isPointStrictlyInRectangle pt2 rect then true else false
  let one : Bool := xor s1 s2
  let a1 := addCheck pt1 pt2 one llpt ulpt ([], [])
  let a2 := addCheck pt1 pt2 one ulpt urpt a1
  let a3 := addCheck pt1 pt2 one urpt lrpt a2
  addCheck pt1 pt2 one llpt lrpt a3

/-- The `one` flag (exactly one endpoint strictly inside) of
`geometry.segmentXbox`. -/
def sxbOne (pt1 pt2 c1 c2 : ℚ × ℚ) : Bool :=
  xor (if isPointStrictlyInRectangle pt1 (canonicalizeExtents c1 c2) then true else false)
    (if isPointStrictlyInRectangle pt2 (canonicalizeExtents c1 c2) then true else false)

theorem sxbA4_unfold (pt1 pt2 c1 c2 : ℚ × ℚ) :
    sxbA4 pt1 pt2 c1 c2 =
      addCheck pt1 pt2 (sxbOne pt1 pt2 c1 c2)
        ((canonicalizeExtents c1 c2).x0, (canonicalizeExtents c1 c2).y0)
        ((canonicalizeExtents c1 c2).x1, (canonicalizeExtents c1 c2).y0)
        (addCheck pt1 pt2 (sxbOne pt1 pt2 c1 c2)
          ((canonicalizeExtents c1 c2).x1, (canonicalizeExtents c1 c2).y1)
          ((canonicalizeExtents c1 c2).x1, (canonicalizeExtents c1 c2).y0)
          (addCheck pt1 pt2 (sxbOne pt1 pt2 c1 c2)
            ((canonicalizeExtents c1 c2).x0, (canonicalizeExtents c1 c2).y1)
            ((canonicalizeExtents c1 c2).x1, (canonicalizeExtents c1 c2).y1)
            (addCheck pt1 pt2 (sxbOne pt1 pt2 c1 c2)
              ((canonicalizeExtents c1 c2).x0, (canonicalizeExtents c1 c2).y0)
              ((canonicalizeExtents c1 c2).x0, (canonicalizeExtents c1 c2).y1)
              ([], [])))) := rfl

theorem segmentXbox_eq_aux (pt1 pt2 c1 c2 : ℚ × ℚ) :
    segmentXbox pt1 pt2 c1 c2 =
      (if (uniqueify (sxbA4 pt1 pt2 c1 c2).1).length +
            (uniqueify (sxbA4 pt1 pt2 c1 c2).2).length = 2 then
        match uniqueify (sxbA4 pt1 pt2 c1 c2).2 with
        | [u, v] =>
            if u.2 = v.2 ∨ u.1 = v.1 then []
            else sortPts (uniqueify (sxbA4 pt1 pt2 c1 c2).1 ++
              uniqueify (sxbA4 pt1 pt2 c1 c2).2)
        | _ => sortPts (uniqueify (sxbA4 pt1 pt2 c1 c2).1 ++
            uniqueify (sxbA4 pt1 pt2 c1 c2).2)
      else sortPts (uniqueify (sxbA4 pt1 pt2 c1 c2).1)) := rfl

theorem addCheck_none {p1 p2 c1 c2 : ℚ × ℚ} {one : Bool}
    (h : segmentXsegment1pt p1 p2 c1 c2 = none)
    (acc : List (Int × Int) × List (Int × Int)) :
    addCheck p1 p2 one c1 c2 acc = acc := by
  unfold addCheck
  rw [h]

theorem addCheck_corner {p1 p2 c1 c2 : ℚ × ℚ} {w : Int × Int}
    (h : segmentXsegment1pt p1 p2 c1 c2 = some w)
    (hc : ((w.1 : ℚ), (w.2 : ℚ)) = c1 ∨ ((w.1 : ℚ), (w.2 : ℚ)) = c2)
    (acc : List (Int × Int) × List (Int × Int)) :
    addCheck p1 p2 false c1 c2 acc = (acc.1, acc.2 ++ [w]) := by
  unfold addCheck
  rw [h]
  simp only [hc, if_true, Bool.false_eq_true, if_false, if_pos hc]

theorem addCheck_pres {P : Int × Int → Prop} {p1 p2 c1 c2 : ℚ × ℚ}
    {acc : List (Int × Int) × List (Int × Int)}
    (h : segmentXsegment1pt p1 p2 c1 c2 = none ∨
      ∃ w : Int × Int, P w ∧ segmentXsegment1pt p1 p2 c1 c2 = some w ∧
        (((w.1 : ℚ), (w.2 : ℚ)) = c1 ∨ ((w.1 : ℚ), (w.2 : ℚ)) = c2))
    (hacc : acc.1 = [] ∧ ∀ u ∈ acc.2, P u) :
    (addCheck p1 p2 false c1 c2 acc).1 = [] ∧
      ∀ u ∈ (addCheck p1 p2 false c1 c2 acc).2, P u := by
  rcases h with h | ⟨w, hw, h, hc⟩
  · rw [addCheck_none h]
    exact hacc
  · rw [addCheck_corner h hc]
    refine ⟨hacc.1, fun u hu => ?_⟩
    rcases List.mem_append.mp hu with hu | hu
    · exact hacc.2 u hu
    · rw [List.mem_singleton.mp hu]
      exact hw

theorem segmentXbox_nil_of (pt1 pt2 c1 c2 : ℚ × ℚ)
    (h1 : (sxbA4 pt1 pt2 c1 c2).1 = [])
    (h2 : (∀ u ∈ (sxbA4 pt1 pt2 c1 c2).2, ∀ v ∈ (sxbA4 pt1 pt2 c1 c2).2, u.1 = v.1) ∨
          (∀ u ∈ (sxbA4 pt1 pt2 c1 c2).2, ∀ v ∈ (sxbA4 pt1 pt2 c1 c2).2, u.2 = v.2)) :
    segmentXbox pt1 pt2 c1 c2 = [] := by
  rw [segmentXbox_eq_aux, h1]
  have hnil : uniqueify ([] : List (Int × Int)) = [] := rfl
  rw [hnil]
  by_cases hlen : (uniqueify (sxbA4 pt1 pt2 c1 c2).2).length = 2
  · obtain ⟨u, v, huv⟩ := List.length_eq_two.mp hlen
    have hu : u ∈ (sxbA4 pt1 pt2 c1 c2).2 :=
      (mem_uniqueify _ u).mp (huv ▸ List.mem_cons_self u [v])
    have hv : v ∈ (sxbA4 pt1 pt2 c1 c2).2 :=
      (mem_uniqueify _ v).mp (huv ▸ List.mem_cons_of_mem u (List.mem_cons_self v []))
    rw [huv]
    rw [if_pos (by simp)]
    have hcond : u.2 = v.2 ∨ u.1 = v.1 := by
      rcases h2 with h2 | h2
      · exact Or.inr (h2 u hu v hv)
      · exact Or.inl (h2 u hu v hv)
    simp only [hcond, if_true, if_pos hcond]
  · rw [if_neg (by simpa using hlen)]
    rfl

theorem segmentXbox_congr {pt1 pt2 c1 c2 d1 d2 : ℚ × ℚ}
    (h : canonicalizeExtents c1 c2 = canonicalizeExtents d1 d2) :
    segmentXbox pt1 pt2 c1 c2 = segmentXbox pt1 pt2 d1 d2 := by
  unfold segmentXbox
  rw [h]

theorem seg1pt_pvert_h {a b : Int × Int} {xl yl xr yr : Int} {w : Int × Int}
    (hv : a.1 = b.1) (hy : (yl : ℚ) = (yr : ℚ))
    (h : segmentXsegment1pt (iPt a) (iPt b) ((xl : ℚ), (yl : ℚ)) ((xr : ℚ), (yr : ℚ)) =
      some w) :
    w = (a.1, yl) := by
  have hv' : (iPt a).1 = (iPt b).1 := by
    show ((a.1 : Int) : ℚ) = ((b.1 : Int) : ℚ)
    exact_mod_cast hv
  by_cases hx : ((xl : ℚ)) = ((xr : ℚ))
  · rw [seg1pt_vv hv' hx] at h
    exact Option.noConfusion h
  · obtain ⟨hw, -, -⟩ := seg1pt_pvert hv' hx h
    have hs : segmentSlope ((xl : ℚ), (yl : ℚ)) ((xr : ℚ), (yr : ℚ)) = 0 := by
      simp [segmentSlope, hy]
    rw [hs] at hw
    have he : (((iPt a).1,
        (0 : ℚ) * ((iPt a).1 - ((xl : ℚ), (yl : ℚ)).1) + ((xl : ℚ), (yl : ℚ)).2) : ℚ × ℚ) =
        (((a.1 : Int) : ℚ), ((yl : Int) : ℚ)) := by
      simp [iPt]
    rw [he, roundPoint_intCast] at hw
    exact hw

theorem seg1pt_phoriz_v {a b : Int × Int} {xl yl xr yr : Int} {w : Int × Int}
    (hnv : a.1 ≠ b.1) (hh : a.2 = b.2) (hx : (xl : ℚ) = (xr : ℚ))
    (h : segmentXsegment1pt (iPt a) (iPt b) ((xl : ℚ), (yl : ℚ)) ((xr : ℚ), (yr : ℚ)) =
      some w) :
    w = (xl, a.2) ∧ ((a.2 : ℚ) - (yr : ℚ)) * ((a.2 : ℚ) - (yl : ℚ)) ≤ 0 := by
  have hnv' : (iPt a).1 ≠ (iPt b).1 := by
    show ((a.1 : Int) : ℚ) ≠ ((b.1 : Int) : ℚ)
    exact_mod_cast hnv
  obtain ⟨hw, -, hmq⟩ := seg1pt_qvert hnv' hx h
  have hs : segmentSlope (iPt a) (iPt b) = 0 := by
    unfold segmentSlope iPt
    rw [hh]
    simp
  constructor
  · rw [hs] at hw
    have he : ((((xl : ℚ), (yl : ℚ)).1,
        (0 : ℚ) * (((xl : ℚ), (yl : ℚ)).1 - (iPt a).1) + (iPt a).2) : ℚ × ℚ) =
        (((xl : Int) : ℚ), ((a.2 : Int) : ℚ)) := by
      simp [iPt]
    rw [he, roundPoint_intCast] at hw
    exact hw
  · unfold isPointOnSegment at hmq
    rw [if_pos hx] at hmq
    dsimp only at hmq
    rw [hs] at hmq
    simp only [zero_mul, zero_add] at hmq
    exact hmq

theorem sxb_line_nil_v (p1 p2 : Int × Int) (x0 y0 x1 y1 : Int)
    (hx : x0 ≤ x1) (hy : y0 ≤ y1)
    (hv : p1.1 = p2.1) (hside : p1.1 = x0 ∨ p1.1 = x1) :
    segmentXbox (iPt p1) (iPt p2) (iPt (x0, y0)) (iPt (x1, y1)) = [] := by
  have hx' : (x0 : ℚ) ≤ (x1 : ℚ) := by exact_mod_cast hx
  have hy' : (y0 : ℚ) ≤ (y1 : ℚ) := by exact_mod_cast hy
  have hv' : (iPt p1).1 = (iPt p2).1 := by
    show ((p1.1 : Int) : ℚ) = ((p2.1 : Int) : ℚ)
    exact_mod_cast hv
  have hRc : canonicalizeExtents (iPt (x0, y0)) (iPt (x1, y1)) =
      ⟨(x0 : ℚ), (y0 : ℚ), (x1 : ℚ), (y1 : ℚ)⟩ := by
    unfold canonicalizeExtents iPt
    dsimp only
    rw [min_eq_left hx', min_eq_left hy', max_eq_right hx', max_eq_right hy']
  have hns1 : ¬ isPointStrictlyInRectangle (iPt p1)
      ⟨(x0 : ℚ), (y0 : ℚ), (x1 : ℚ), (y1 : ℚ)⟩ := by
    rintro ⟨⟨ha, hb⟩, -⟩
    rcases hside with hs | hs
    · have ha2 : (x0 : ℚ) < ((p1.1 : Int) : ℚ) := ha
      rw [hs] at ha2
      exact lt_irrefl _ ha2
    · have hb2 : ((p1.1 : Int) : ℚ) < (x1 : ℚ) := hb
      rw [hs] at hb2
      exact lt_irrefl _ hb2
  have hns2 : ¬ isPointStrictlyInRectangle (iPt p2)
      ⟨(x0 : ℚ), (y0 : ℚ), (x1 : ℚ), (y1 : ℚ)⟩ := by
    rintro ⟨⟨ha, hb⟩, -⟩
    rcases hside with hs | hs
    · have ha2 : (x0 : ℚ) < ((p2.1 : Int) : ℚ) := ha
      rw [← hv, hs] at ha2
      exact lt_irrefl _ ha2
    · have hb2 : ((p2.1 : Int) : ℚ) < (x1 : ℚ) := hb
      rw [← hv, hs] at hb2
      exact lt_irrefl _ hb2
  have hone : sxbOne (iPt p1) (iPt p2) (iPt (x0, y0)) (iPt (x1, y1)) = false := by
    unfold sxbOne
    rw [hRc, if_neg hns1, if_neg hns2]
    rfl
  have hA4 : sxbA4 (iPt p1) (iPt p2) (iPt (x0, y0)) (iPt (x1, y1)) =
      addCheck (iPt p1) (iPt p2) false ((x0 : ℚ), (y0 : ℚ)) ((x1 : ℚ), (y0 : ℚ))
        (addCheck (iPt p1) (iPt p2) false ((x1 : ℚ), (y1 : ℚ)) ((x1 : ℚ), (y0 : ℚ))
          (addCheck (iPt p1) (iPt p2) false ((x0 : ℚ), (y1 : ℚ)) ((x1 : ℚ), (y1 : ℚ))
            (addCheck (iPt p1) (iPt p2) false ((x0 : ℚ), (y0 : ℚ)) ((x0 : ℚ), (y1 : ℚ))
              ([], [])))) := by
    rw [sxbA4_unfold, hRc, hone]
  have hL : segmentXsegment1pt (iPt p1) (iPt p2) ((x0 : ℚ), (y0 : ℚ)) ((x0 : ℚ), (y1 : ℚ)) =
      none := seg1pt_vv hv' rfl
  have hRt : segmentXsegment1pt (iPt p1) (iPt p2) ((x1 : ℚ), (y1 : ℚ)) ((x1 : ℚ), (y0 : ℚ)) =
      none := seg1pt_vv hv' rfl
  have hT : segmentXsegment1pt (iPt p1) (iPt p2) ((x0 : ℚ), (y1 : ℚ)) ((x1 : ℚ), (y1 : ℚ)) =
        none ∨
      ∃ w : Int × Int, w.1 = p1.1 ∧
        segmentXsegment1pt (iPt p1) (iPt p2) ((x0 : ℚ), (y1 : ℚ)) ((x1 : ℚ), (y1 : ℚ)) =
          some w ∧
        (((w.1 : ℚ), (w.2 : ℚ)) = ((x0 : ℚ), (y1 : ℚ)) ∨
          ((w.1 : ℚ), (w.2 : ℚ)) = ((x1 : ℚ), (y1 : ℚ))) := by
    rcases hres : segmentXsegment1pt (iPt p1) (iPt p2) ((x0 : ℚ), (y1 : ℚ))
        ((x1 : ℚ), (y1 : ℚ)) with _ | w
    · exact Or.inl rfl
    · right
      have hw : w = (p1.1, y1) := seg1pt_pvert_h hv rfl hres
      refine ⟨w, by rw [hw], rfl, ?_⟩
      rcases hside with hs | hs
      · exact Or.inl (by rw [hw, hs])
      · exact Or.inr (by rw [hw, hs])
  have hB : segmentXsegment1pt (iPt p1) (iPt p2) ((x0 : ℚ), (y0 : ℚ)) ((x1 : ℚ), (y0 : ℚ)) =
        none ∨
      ∃ w : Int × Int, w.1 = p1.1 ∧
        segmentXsegment1pt (iPt p1) (iPt p2) ((x0 : ℚ), (y0 : ℚ)) ((x1 : ℚ), (y0 : ℚ)) =
          some w ∧
        (((w.1 : ℚ), (w.2 : ℚ)) = ((x0 : ℚ), (y0 : ℚ)) ∨
          ((w.1 : ℚ), (w.2 : ℚ)) = ((x1 : ℚ), (y0 : ℚ))) := by
    rcases hres : segmentXsegment1pt (iPt p1) (iPt p2) ((x0 : ℚ), (y0 : ℚ))
        ((x1 : ℚ), (y0 : ℚ)) with _ | w
    · exact Or.inl rfl
    · right
      have hw : w = (p1.1, y0) := seg1pt_pvert_h hv rfl hres
      refine ⟨w, by rw [hw], rfl, ?_⟩
      rcases hside with hs | hs
      · exact Or.inl (by rw [hw, hs])
      · exact Or.inr (by rw [hw, hs])
  have hbase : ((([], []) : List (Int × Int) × List (Int × Int)).1 = [] ∧
      ∀ u ∈ (([], []) : List (Int × Int) × List (Int × Int)).2, u.1 = p1.1) :=
    ⟨rfl, fun u hu => absurd hu (List.not_mem_nil u)⟩
  have s1 := addCheck_pres (P := fun u => u.1 = p1.1) (Or.inl hL) hbase
  have s2 := addCheck_pres (P := fun u => u.1 = p1.1) hT s1
  have s3 := addCheck_pres (P := fun u => u.1 = p1.1) (Or.inl hRt) s2
  have s4 := addCheck_pres (P := fun u => u.1 = p1.1) hB s3
  refine segmentXbox_nil_of _ _ _ _ ?_ (Or.inl ?_)
  · rw [hA4]
    exact s4.1
  · intro u hu v hv2
    rw [hA4] at hu hv2
    exact (s4.2 u hu).trans (s4.2 v hv2).symm

theorem sxb_line_nil_h (p1 p2 : Int × Int) (x0 y0 x1 y1 : Int)
    (hx : x0 ≤ x1) (hy : y0 ≤ y1)
    (hnv : p1.1 ≠ p2.1) (hh : p1.2 = p2.2) (hside : p1.2 = y0 ∨ p1.2 = y1) :
    segmentXbox (iPt p1) (iPt p2) (iPt (x0, y0)) (iPt (x1, y1)) = [] := by
  have hx' : (x0 : ℚ) ≤ (x1 : ℚ) := by exact_mod_cast hx
  have hy' : (y0 : ℚ) ≤ (y1 : ℚ) := by exact_mod_cast hy
  have hnv' : (iPt p1).1 ≠ (iPt p2).1 := by
    show ((p1.1 : Int) : ℚ) ≠ ((p2.1 : Int) : ℚ)
    exact_mod_cast hnv
  have hs1 : segmentSlope (iPt p1) (iPt p2) = 0 := by
    unfold segmentSlope iPt
    dsimp only
    rw [hh]
    simp
  have hRc : canonicalizeExtents (iPt (x0, y0)) (iPt (x1, y1)) =
      ⟨(x0 : ℚ), (y0 : ℚ), (x1 : ℚ), (y1 : ℚ)⟩ := by
    unfold canonicalizeExtents iPt
    dsimp only
    rw [min_eq_left hx', min_eq_left hy', max_eq_right hx', max_eq_right hy']
  have hns1 : ¬ isPointStrictlyInRectangle (iPt p1)
      ⟨(x0 : ℚ), (y0 : ℚ), (x1 : ℚ), (y1 : ℚ)⟩ := by
    rintro ⟨-, ⟨ha, hb⟩⟩
    rcases hside with hs | hs
    · have ha2 : (y0 : ℚ) < ((p1.2 : Int) : ℚ) := ha
      rw [hs] at ha2
      exact lt_irrefl _ ha2
    · have hb2 : ((p1.2 : Int) : ℚ) < (y1 : ℚ) := hb
      rw [hs] at hb2
      exact lt_irrefl _ hb2
  have hns2 : ¬ isPointStrictlyInRectangle (iPt p2)
      ⟨(x0 : ℚ), (y0 : ℚ), (x1 : ℚ), (y1 : ℚ)⟩ := by
    rintro ⟨-, ⟨ha, hb⟩⟩
    rcases hside with hs | hs
    · have ha2 : (y0 : ℚ) < ((p2.2 : Int) : ℚ) := ha
      rw [← hh, hs] at ha2
      exact lt_irrefl _ ha2
    · have hb2 : ((p2.2 : Int) : ℚ) < (y1 : ℚ) := hb
      rw [← hh, hs] at hb2
      exact lt_irrefl _ hb2
  have hone : sxbOne (iPt p1) (iPt p2) (iPt (x0, y0)) (iPt (x1, y1)) = false := by
    unfold sxbOne
    rw [hRc, if_neg hns1, if_neg hns2]
    rfl
  have hA4 : sxbA4 (iPt p1) (iPt p2) (iPt (x0, y0)) (iPt (x1, y1)) =
      addCheck (iPt p1) (iPt p2) false ((x0 : ℚ), (y0 : ℚ)) ((x1 : ℚ), (y0 : ℚ))
        (addCheck (iPt p1) (iPt p2) false ((x1 : ℚ), (y1 : ℚ)) ((x1 : ℚ), (y0 : ℚ))
          (addCheck (iPt p1) (iPt p2) false ((x0 : ℚ), (y1 : ℚ)) ((x1 : ℚ), (y1 : ℚ))
            (addCheck (iPt p1) (iPt p2) false ((x0 : ℚ), (y0 : ℚ)) ((x0 : ℚ), (y1 : ℚ))
              ([], [])))) := by
    rw [sxbA4_unfold, hRc, hone]
  have hL : segmentXsegment1pt (iPt p1) (iPt p2) ((x0 : ℚ), (y0 : ℚ)) ((x0 : ℚ), (y1 : ℚ)) =
        none ∨
      ∃ w : Int × Int, w.2 = p1.2 ∧
        segmentXsegment1pt (iPt p1) (iPt p2) ((x0 : ℚ), (y0 : ℚ)) ((x0 : ℚ), (y1 : ℚ)) =
          some w ∧
        (((w.1 : ℚ), (w.2 : ℚ)) = ((x0 : ℚ), (y0 : ℚ)) ∨
          ((w.1 : ℚ), (w.2 : ℚ)) = ((x0 : ℚ), (y1 : ℚ))) := by
    rcases hres : segmentXsegment1pt (iPt p1) (iPt p2) ((x0 : ℚ), (y0 : ℚ))
        ((x0 : ℚ), (y1 : ℚ)) with _ | w
    · exact Or.inl rfl
    · right
      obtain ⟨hw, -⟩ := seg1pt_phoriz_v hnv hh rfl hres
      refine ⟨w, by rw [hw], rfl, ?_⟩
      rcases hside with hs | hs
      · exact Or.inl (by rw [hw, hs])
      · exact Or.inr (by rw [hw, hs])
  have hRt : segmentXsegment1pt (iPt p1) (iPt p2) ((x1 : ℚ), (y1 : ℚ)) ((x1 : ℚ), (y0 : ℚ)) =
        none ∨
      ∃ w : Int × Int, w.2 = p1.2 ∧
        segmentXsegment1pt (iPt p1) (iPt p2) ((x1 : ℚ), (y1 : ℚ)) ((x1 : ℚ), (y0 : ℚ)) =
          some w ∧
        (((w.1 : ℚ), (w.2 : ℚ)) = ((x1 : ℚ), (y1 : ℚ)) ∨
          ((w.1 : ℚ), (w.2 : ℚ)) = ((x1 : ℚ), (y0 : ℚ))) := by
    rcases hres : segmentXsegment1pt (iPt p1) (iPt p2) ((x1 : ℚ), (y1 : ℚ))
        ((x1 : ℚ), (y0 : ℚ)) with _ | w
    · exact Or.inl rfl
    · right
      obtain ⟨hw, -⟩ := seg1pt_phoriz_v hnv hh rfl hres
      refine ⟨w, by rw [hw], rfl, ?_⟩
      rcases hside with hs | hs
      · exact Or.inr (by rw [hw, hs])
      · exact Or.inl (by rw [hw, hs])
  have hT : segmentXsegment1pt (iPt p1) (iPt p2) ((x0 : ℚ), (y1 : ℚ)) ((x1 : ℚ), (y1 : ℚ)) =
        none ∨
      ∃ w : Int × Int, w.2 = p1.2 ∧
        segmentXsegment1pt (iPt p1) (iPt p2) ((x0 : ℚ), (y1 : ℚ)) ((x1 : ℚ), (y1 : ℚ)) =
          some w ∧
        (((w.1 : ℚ), (w.2 : ℚ)) = ((x0 : ℚ), (y1 : ℚ)) ∨
          ((w.1 : ℚ), (w.2 : ℚ)) = ((x1 : ℚ), (y1 : ℚ))) := by
    rcases hres : segmentXsegment1pt (iPt p1) (iPt p2) ((x0 : ℚ), (y1 : ℚ))
        ((x1 : ℚ), (y1 : ℚ)) with _ | w
    · exact Or.inl rfl
    · right
      by_cases hx01 : (x0 : ℚ) = (x1 : ℚ)
      · obtain ⟨hw, hm⟩ := seg1pt_phoriz_v hnv hh hx01 hres
        have h0 : ((p1.2 : ℚ) - (y1 : ℚ)) * ((p1.2 : ℚ) - (y1 : ℚ)) = 0 :=
          le_antisymm hm (mul_self_nonneg _)
        have hp12 : (p1.2 : ℚ) = (y1 : ℚ) := by
          have := mul_self_eq_zero.mp h0
          linarith
        refine ⟨w, by rw [hw], rfl, Or.inl ?_⟩
        rw [hw]
        simp only [Prod.mk.injEq]
        exact ⟨trivial, hp12⟩
      · exfalso
        have hs2 : segmentSlope ((x0 : ℚ), (y1 : ℚ)) ((x1 : ℚ), (y1 : ℚ)) = 0 := by
          simp [segmentSlope]
        rw [seg1pt_parallel hnv' hx01 (hs1.trans hs2.symm)] at hres
        exact Option.noConfusion hres
  have hB : segmentXsegment1pt (iPt p1) (iPt p2) ((x0 : ℚ), (y0 : ℚ)) ((x1 : ℚ), (y0 : ℚ)) =
        none ∨
      ∃ w : Int × Int, w.2 = p1.2 ∧
        segmentXsegment1pt (iPt p1) (iPt p2) ((x0 : ℚ), (y0 : ℚ)) ((x1 : ℚ), (y0 : ℚ)) =
          some w ∧
        (((w.1 : ℚ), (w.2 : ℚ)) = ((x0 : ℚ), (y0 : ℚ)) ∨
          ((w.1 : ℚ), (w.2 : ℚ)) = ((x1 : ℚ), (y0 : ℚ))) := by
    rcases hres : segmentXsegment1pt (iPt p1) (iPt p2) ((x0 : ℚ), (y0 : ℚ))
        ((x1 : ℚ), (y0 : ℚ)) with _ | w
    · exact Or.inl rfl
    · right
      by_cases hx01 : (x0 : ℚ) = (x1 : ℚ)
      · obtain ⟨hw, hm⟩ := seg1pt_phoriz_v hnv hh hx01 hres
        have h0 : ((p1.2 : ℚ) - (y0 : ℚ)) * ((p1.2 : ℚ) - (y0 : ℚ)) = 0 :=
          le_antisymm hm (mul_self_nonneg _)
        have hp12 : (p1.2 : ℚ) = (y0 : ℚ) := by
          have := mul_self_eq_zero.mp h0
          linarith
        refine ⟨w, by rw [hw], rfl, Or.inl ?_⟩
        rw [hw]
        simp only [Prod.mk.injEq]
        exact ⟨trivial, hp12⟩
      · exfalso
        have hs2 : segmentSlope ((x0 : ℚ), (y0 : ℚ)) ((x1 : ℚ), (y0 : ℚ)) = 0 := by
          simp [segmentSlope]
        rw [seg1pt_parallel hnv' hx01 (hs1.trans hs2.symm)] at hres
        exact Option.noConfusion hres
  have hbase : ((([], []) : List (Int × Int) × List (Int × Int)).1 = [] ∧
      ∀ u ∈ (([], []) : List (Int × Int) × List (Int × Int)).2, u.2 = p1.2) :=
    ⟨rfl, fun u hu => absurd hu (List.not_mem_nil u)⟩
  have s1 := addCheck_pres (P := fun u => u.2 = p1.2) hL hbase
  have s2 := addCheck_pres (P := fun u => u.2 = p1.2) hT s1
  have s3 := addCheck_pres (P := fun u => u.2 = p1.2) hRt s2
  have s4 := addCheck_pres (P := fun u => u.2 = p1.2) hB s3
  refine segmentXbox_nil_of _ _ _ _ ?_ (Or.inr ?_)
  · rw [hA4]
    exact s4.1
  · intro u hu v hv2
    rw [hA4] at hu hv2
    exact (s4.2 u hu).trans (s4.2 v hv2).symm

/-- C6: the claim as stated is refuted by a degenerate segment: both
endpoints of the single-point segment (5,0)-(5,0) lie on the line
`y = miny` through the bottom side of the box (0,0)-(10,10), yet
`segmentXbox` returns the point (5,0) rather than the empty list (this
particular point passes both on-segment tests against the bottom side
and is not a corner, so it is kept as a regular crossing). -/
theorem C6_degenerate_counterexample :
    ((5 : Int), (0 : Int)).2 = min ((0 : Int), (0 : Int)).2 ((10 : Int), (10 : Int)).2 ∧
    segmentXbox (iPt (5, 0)) (iPt (5, 0)) (iPt (0, 0)) (iPt (10, 10)) = [(5, 0)] := by
  constructor
  · decide
  · with_unfolding_all rfl

/-- C6 (amended): for every nondegenerate segment (`p1 ≠ p2`, integer
endpoints) whose endpoints both lie on the vertical line `x = minx` or
`x = maxx`, or both on the horizontal line `y = miny` or `y = maxy`, of
the box spanned by integer corners `c1`, `c2`, `segmentXbox` returns
the empty list — including when the segment overlaps a box edge or
touches a corner. -/
theorem C6_collinear_side_empty (p1 p2 c1 c2 : Int × Int) (hne : p1 ≠ p2)
    (hcol : (p1.1 = p2.1 ∧ (p1.1 = min c1.1 c2.1 ∨ p1.1 = max c1.1 c2.1)) ∨
            (p1.2 = p2.2 ∧ (p1.2 = min c1.2 c2.2 ∨ p1.2 = max c1.2 c2.2))) :
    segmentXbox (iPt p1) (iPt p2) (iPt c1) (iPt c2) = [] := by
  have hcanon : canonicalizeExtents (iPt c1) (iPt c2) =
      canonicalizeExtents (iPt (min c1.1 c2.1, min c1.2 c2.2))
        (iPt (max c1.1 c2.1, max c1.2 c2.2)) := by
    unfold canonicalizeExtents iPt
    dsimp only
    have e1 : min ((min c1.1 c2.1 : Int) : ℚ) ((max c1.1 c2.1 : Int) : ℚ) =
        min ((c1.1 : Int) : ℚ) ((c2.1 : Int) : ℚ) := by
      rw [min_eq_left (by exact_mod_cast (min_le_max : min c1.1 c2.1 ≤ max c1.1 c2.1))]
      exact_mod_cast rfl
    have e2 : min ((min c1.2 c2.2 : Int) : ℚ) ((max c1.2 c2.2 : Int) : ℚ) =
        min ((c1.2 : Int) : ℚ) ((c2.2 : Int) : ℚ) := by
      rw [min_eq_left (by exact_mod_cast (min_le_max : min c1.2 c2.2 ≤ max c1.2 c2.2))]
      exact_mod_cast rfl
    have e3 : max ((min c1.1 c2.1 : Int) : ℚ) ((max c1.1 c2.1 : Int) : ℚ) =
        max ((c1.1 : Int) : ℚ) ((c2.1 : Int) : ℚ) := by
      rw [max_eq_right (by exact_mod_cast (min_le_max : min c1.1 c2.1 ≤ max c1.1 c2.1))]
      exact_mod_cast rfl
    have e4 : max ((min c1.2 c2.2 : Int) : ℚ) ((max c1.2 c2.2 : Int) : ℚ) =
        max ((c1.2 : Int) : ℚ) ((c2.2 : Int) : ℚ) := by
      rw [max_eq_right (by exact_mod_cast (min_le_max : min c1.2 c2.2 ≤ max c1.2 c2.2))]
      exact_mod_cast rfl
    rw [e1, e2, e3, e4]
  rw [segmentXbox_congr hcanon]
  rcases hcol with ⟨hv, hside⟩ | ⟨hh, hside⟩
  · exact sxb_line_nil_v p1 p2 (min c1.1 c2.1) (min c1.2 c2.2) (max c1.1 c2.1)
      (max c1.2 c2.2) min_le_max min_le_max hv hside
  · have hnv : p1.1 ≠ p2.1 := fun hx1 => hne (Prod.ext_iff.mpr ⟨hx1, hh⟩)
    exact sxb_line_nil_h p1 p2 (min c1.1 c2.1) (min c1.2 c2.2) (max c1.1 c2.1)
      (max c1.2 c2.2) min_le_max min_le_max hnv hh hside

/-- Witness for C6: the segment (0,3)-(0,7) lies on the left side line
`x = minx` of the box (0,0)-(10,10) and `segmentXbox` returns `[]`. -/
theorem C6_witness :
    ((0 : Int), (3 : Int)) ≠ ((0 : Int), (7 : Int)) ∧
    segmentXbox (iPt (0, 3)) (iPt (0, 7)) (iPt (0, 0)) (iPt (10, 10)) = [] :=
  ⟨by decide,
    C6_collinear_side_empty (0, 3) (0, 7) (0, 0) (10, 10) (by decide)
      (Or.inl ⟨rfl, Or.inl (by decide)⟩)⟩

/-! ## Lemmas for the `numPts <= 2` assertion of `segmentXbox` (C9) -/

theorem cancel_sq_nonneg {m z : ℚ} (hm : m ≠ 0) (h : 0 ≤ m * m * z) : 0 ≤ z := by
  by_contra hcon
  push_neg at hcon
  have h1 : m * m * z < 0 := mul_neg_of_pos_of_neg (mul_self_pos.mpr hm) hcon
  linarith

theorem cancel_sq_nonpos {m z : ℚ} (hm : m ≠ 0) (h : m * m * z ≤ 0) : z ≤ 0 := by
  by_contra hcon
  push_neg at hcon
  have h1 : 0 < m * m * z := mul_pos (mul_self_pos.mpr hm) hcon
  linarith

theorem prod_nonpos_le_right {w lo hi : ℚ} (hlo : lo ≤ hi) (h : (w - hi) * (w - lo) ≤ 0) :
    w ≤ hi := by
  by_contra hcon
  push_neg at hcon
  have h1 : 0 < w - hi := by linarith
  have h2 : 0 < w - lo := by linarith
  linarith [mul_pos h1 h2]

theorem prod_nonpos_ge_left {w lo hi : ℚ} (hlo : lo ≤ hi) (h : (w - hi) * (w - lo) ≤ 0) :
    lo ≤ w := by
  by_contra hcon
  push_neg at hcon
  have h1 : w - hi < 0 := by linarith
  have h2 : w - lo < 0 := by linarith
  nlinarith

theorem seg1pt_pvert_hq {p1 p2 : ℚ × ℚ} {xa xb ys : ℚ} {w : Int × Int}
    (hv : p1.1 = p2.1)
    (h : segmentXsegment1pt p1 p2 (xa, ys) (xb, ys) = some w) :
    w = roundPoint (p1.1, ys) := by
  by_cases hab : xa = xb
  · rw [seg1pt_vv hv hab] at h
    exact Option.noConfusion h
  · obtain ⟨hw, -, -⟩ := seg1pt_pvert hv hab h
    have hs : segmentSlope (xa, ys) (xb, ys) = 0 := by
      simp [segmentSlope]
    rw [hs] at hw
    have he : ((p1.1, (0 : ℚ) * (p1.1 - (xa, ys).1) + (xa, ys).2) : ℚ × ℚ) = (p1.1, ys) := by
      simp
    rw [he] at hw
    exact hw

theorem seg1pt_vside {p1 p2 : ℚ × ℚ} {xa ya xb yb : ℚ} {w : Int × Int}
    (hnv : p1.1 ≠ p2.1) (hx : xa = xb)
    (h : segmentXsegment1pt p1 p2 (xa, ya) (xb, yb) = some w) :
    w = roundPoint (xa, segmentSlope p1 p2 * (xa - p1.1) + p1.2) ∧
    (segmentSlope p1 p2 * (xa - p1.1) + p1.2 - yb) *
      (segmentSlope p1 p2 * (xa - p1.1) + p1.2 - ya) ≤ 0 := by
  obtain ⟨hw, -, hmq⟩ := seg1pt_qvert hnv hx h
  refine ⟨hw, ?_⟩
  unfold isPointOnSegment at hmq
  rw [if_pos hx] at hmq
  dsimp only at hmq
  exact hmq

theorem seg1pt_hside {p1 p2 : ℚ × ℚ} {xa xb ys : ℚ} {w : Int × Int}
    (hnv : p1.1 ≠ p2.1) (hq : xa ≠ xb)
    (h : segmentXsegment1pt p1 p2 (xa, ys) (xb, ys) = some w) :
    segmentSlope p1 p2 ≠ 0 ∧
    ∃ u : ℚ, w = roundPoint (u, ys) ∧
      segmentSlope p1 p2 * (u - p1.1) + p1.2 = ys ∧
      (u - xb) * (u - xa) ≤ 0 := by
  have hq' : ((xa, ys) : ℚ × ℚ).1 ≠ ((xb, ys) : ℚ × ℚ).1 := hq
  obtain ⟨hmne, hw, hmp, hmq⟩ := seg1pt_gen hnv hq' h
  have hsq : segmentSlope (xa, ys) (xb, ys) = 0 := by simp [segmentSlope]
  rw [hsq] at hmne hw hmq
  have hyc : segmentSlope p1 p2 *
      ((p1.1 * segmentSlope p1 p2 - p1.2 - (xa, ys).1 * 0 + (xa, ys).2) /
          (segmentSlope p1 p2 - 0) - p1.1) + p1.2 = ys := by
    dsimp only
    rw [sub_zero]
    field_simp
    ring
  rw [hyc] at hw
  refine ⟨hmne, _, hw, hyc, ?_⟩
  unfold isPointOnSegment at hmq
  rw [if_neg hq'] at hmq
  dsimp only at hmq
  exact hmq

theorem seg1pt_fst_eq {p1 p2 : ℚ × ℚ} {xs ya yb : Int} {v : Int × Int}
    (h : segmentXsegment1pt p1 p2 ((xs : ℚ), (ya : ℚ)) ((xs : ℚ), (yb : ℚ)) = some v) :
    v.1 = xs := by
  by_cases hnv : p1.1 = p2.1
  · rw [seg1pt_vv hnv (show ((xs : ℚ), (ya : ℚ)).1 = ((xs : ℚ), (yb : ℚ)).1 from rfl)] at h
    exact Option.noConfusion h
  · obtain ⟨hw, -⟩ :=
      seg1pt_vside hnv (show ((xs : ℚ)) = ((xs : ℚ)) from rfl) h
    rw [hw]
    exact pyRound_intCast xs

theorem seg1pt_snd_eq {p1 p2 : ℚ × ℚ} {xa xb ys : Int} {v : Int × Int}
    (h : segmentXsegment1pt p1 p2 ((xa : ℚ), (ys : ℚ)) ((xb : ℚ), (ys : ℚ)) = some v) :
    v.2 = ys := by
  by_cases hnv : p1.1 = p2.1
  · have hw := seg1pt_pvert_hq hnv h
    rw [hw]
    exact pyRound_intCast ys
  · by_cases hab : ((xa : ℚ)) = ((xb : ℚ))
    · obtain ⟨hw, hm⟩ := seg1pt_vside hnv hab h
      have h0 : (segmentSlope p1 p2 * ((xa : ℚ) - p1.1) + p1.2 - (ys : ℚ)) *
          (segmentSlope p1 p2 * ((xa : ℚ) - p1.1) + p1.2 - (ys : ℚ)) = 0 :=
        le_antisymm hm (mul_self_nonneg _)
      have hE : segmentSlope p1 p2 * ((xa : ℚ) - p1.1) + p1.2 = (ys : ℚ) := by
        have := mul_self_eq_zero.mp h0
        linarith
      rw [hE] at hw
      rw [hw]
      exact pyRound_intCast ys
    · obtain ⟨-, u, hw, -, -⟩ := seg1pt_hside hnv hab h
      rw [hw]
      exact pyRound_intCast ys

theorem sxb_triple_lrt {p1 p2 : ℚ × ℚ} {X0 Y0 X1 Y1 : ℚ} {a b c : Int × Int}
    (hy : Y0 ≤ Y1) (hnv : p1.1 ≠ p2.1) (hX : X0 ≠ X1)
    (hl : segmentXsegment1pt p1 p2 (X0, Y0) (X0, Y1) = some a)
    (hr : segmentXsegment1pt p1 p2 (X1, Y1) (X1, Y0) = some c)
    (ht : segmentXsegment1pt p1 p2 (X0, Y1) (X1, Y1) = some b) :
    b = a ∨ b = c := by
  obtain ⟨hwa, hma⟩ := seg1pt_vside hnv (show X0 = X0 from rfl) hl
  obtain ⟨hwc, hmc⟩ := seg1pt_vside hnv (show X1 = X1 from rfl) hr
  obtain ⟨hm0, u, hwb, hline, hmemb⟩ := seg1pt_hside hnv hX ht
  have h3 : segmentSlope p1 p2 * (X0 - p1.1) + p1.2 ≤ Y1 :=
    prod_nonpos_le_right hy hma
  have h4 : segmentSlope p1 p2 * (X1 - p1.1) + p1.2 ≤ Y1 := by
    rw [mul_comm] at hmc
    exact prod_nonpos_le_right hy hmc
  have h5 : 0 ≤ segmentSlope p1 p2 * (u - X0) := by
    have he : Y1 - (segmentSlope p1 p2 * (X0 - p1.1) + p1.2) =
        segmentSlope p1 p2 * (u - X0) := by
      rw [← hline]
      ring
    rw [← he]
    linarith
  have h6 : 0 ≤ segmentSlope p1 p2 * (u - X1) := by
    have he : Y1 - (segmentSlope p1 p2 * (X1 - p1.1) + p1.2) =
        segmentSlope p1 p2 * (u - X1) := by
      rw [← hline]
      ring
    rw [← he]
    linarith
  have h7 : 0 ≤ (u - X0) * (u - X1) := by
    apply cancel_sq_nonneg hm0
    have h8 := mul_nonneg h5 h6
    have h9 : segmentSlope p1 p2 * segmentSlope p1 p2 * ((u - X0) * (u - X1)) =
        segmentSlope p1 p2 * (u - X0) * (segmentSlope p1 p2 * (u - X1)) := by ring
    rw [h9]
    exact h8
  have h7b : 0 ≤ (u - X1) * (u - X0) := by
    rw [mul_comm]
    exact h7
  have h10 : (u - X1) * (u - X0) = 0 := le_antisymm hmemb h7b
  rcases mul_eq_zero.mp h10 with h | h
  · right
    have hu : u = X1 := by linarith
    rw [hu] at hline
    rw [hwb, hwc, hu, hline]
  · left
    have hu : u = X0 := by linarith
    rw [hu] at hline
    rw [hwb, hwa, hu, hline]

theorem sxb_triple_lrb {p1 p2 : ℚ × ℚ} {X0 Y0 X1 Y1 : ℚ} {a c d : Int × Int}
    (hy : Y0 ≤ Y1) (hnv : p1.1 ≠ p2.1) (hX : X0 ≠ X1)
    (hl : segmentXsegment1pt p1 p2 (X0, Y0) (X0, Y1) = some a)
    (hr : segmentXsegment1pt p1 p2 (X1, Y1) (X1, Y0) = some c)
    (hb : segmentXsegment1pt p1 p2 (X0, Y0) (X1, Y0) = some d) :
    d = a ∨ d = c := by
  obtain ⟨hwa, hma⟩ := seg1pt_vside hnv (show X0 = X0 from rfl) hl
  obtain ⟨hwc, hmc⟩ := seg1pt_vside hnv (show X1 = X1 from rfl) hr
  obtain ⟨hm0, u, hwd, hline, hmemb⟩ := seg1pt_hside hnv hX hb
  have h3 : Y0 ≤ segmentSlope p1 p2 * (X0 - p1.1) + p1.2 :=
    prod_nonpos_ge_left hy hma
  have h4 : Y0 ≤ segmentSlope p1 p2 * (X1 - p1.1) + p1.2 := by
    rw [mul_comm] at hmc
    exact prod_nonpos_ge_left hy hmc
  have h5 : 0 ≤ segmentSlope p1 p2 * (X0 - u) := by
    have he : (segmentSlope p1 p2 * (X0 - p1.1) + p1.2) - Y0 =
        segmentSlope p1 p2 * (X0 - u) := by
      rw [← hline]
      ring
    rw [← he]
    linarith
  have h6 : 0 ≤ segmentSlope p1 p2 * (X1 - u) := by
    have he : (segmentSlope p1 p2 * (X1 - p1.1) + p1.2) - Y0 =
        segmentSlope p1 p2 * (X1 - u) := by
      rw [← hline]
      ring
    rw [← he]
    linarith
  have h7 : 0 ≤ (X0 - u) * (X1 - u) := by
    apply cancel_sq_nonneg hm0
    have h8 := mul_nonneg h5 h6
    have h9 : segmentSlope p1 p2 * segmentSlope p1 p2 * ((X0 - u) * (X1 - u)) =
        segmentSlope p1 p2 * (X0 - u) * (segmentSlope p1 p2 * (X1 - u)) := by ring
    rw [h9]
    exact h8
  have h7b : 0 ≤ (u - X1) * (u - X0) := by
    have h9 : (u - X1) * (u - X0) = (X0 - u) * (X1 - u) := by ring
    rw [h9]
    exact h7
  have h10 : (u - X1) * (u - X0) = 0 := le_antisymm hmemb h7b
  rcases mul_eq_zero.mp h10 with h | h
  · right
    have hu : u = X1 := by linarith
    rw [hu] at hline
    rw [hwd, hwc, hu, hline]
  · left
    have hu : u = X0 := by linarith
    rw [hu] at hline
    rw [hwd, hwa, hu, hline]

theorem sxb_triple_ltb {p1 p2 : ℚ × ℚ} {X0 Y0 X1 Y1 : ℚ} {a b d : Int × Int}
    (hx : X0 ≤ X1) (hnv : p1.1 ≠ p2.1) (hX : X0 ≠ X1)
    (hl : segmentXsegment1pt p1 p2 (X0, Y0) (X0, Y1) = some a)
    (ht : segmentXsegment1pt p1 p2 (X0, Y1) (X1, Y1) = some b)
    (hb : segmentXsegment1pt p1 p2 (X0, Y0) (X1, Y0) = some d) :
    a = b ∨ a = d := by
  obtain ⟨hwa, hma⟩ := seg1pt_vside hnv (show X0 = X0 from rfl) hl
  obtain ⟨hm0, u, hwb, hlineu, hmembu⟩ := seg1pt_hside hnv hX ht
  obtain ⟨-, v, hwd, hlinev, hmembv⟩ := seg1pt_hside hnv hX hb
  have hu0 : X0 ≤ u := prod_nonpos_ge_left hx hmembu
  have hv0 : X0 ≤ v := prod_nonpos_ge_left hx hmembv
  have hkey : (segmentSlope p1 p2 * (X0 - p1.1) + p1.2 - Y1) *
      (segmentSlope p1 p2 * (X0 - p1.1) + p1.2 - Y0) =
      segmentSlope p1 p2 * segmentSlope p1 p2 * ((X0 - u) * (X0 - v)) := by
    rw [← hlineu, ← hlinev]
    ring
  rw [hkey] at hma
  have h7 : (X0 - u) * (X0 - v) ≤ 0 := cancel_sq_nonpos hm0 hma
  have h8 : 0 ≤ (X0 - u) * (X0 - v) := by
    have h9 : (X0 - u) * (X0 - v) = (u - X0) * (v - X0) := by ring
    rw [h9]
    exact mul_nonneg (by linarith) (by linarith)
  have h10 : (X0 - u) * (X0 - v) = 0 := le_antisymm h7 h8
  rcases mul_eq_zero.mp h10 with h | h
  · left
    have hu : u = X0 := by linarith
    rw [hu] at hlineu
    rw [hwa, hwb, hu, hlineu]
  · right
    have hv : v = X0 := by linarith
    rw [hv] at hlinev
    rw [hwa, hwd, hv, hlinev]

theorem sxb_triple_rtb {p1 p2 : ℚ × ℚ} {X0 Y0 X1 Y1 : ℚ} {b c d : Int × Int}
    (hx : X0 ≤ X1) (hnv : p1.1 ≠ p2.1) (hX : X0 ≠ X1)
    (hr : segmentXsegment1pt p1 p2 (X1, Y1) (X1, Y0) = some c)
    (ht : segmentXsegment1pt p1 p2 (X0, Y1) (X1, Y1) = some b)
    (hb : segmentXsegment1pt p1 p2 (X0, Y0) (X1, Y0) = some d) :
    c = b ∨ c = d := by
  obtain ⟨hwc, hmc⟩ := seg1pt_vside hnv (show X1 = X1 from rfl) hr
  obtain ⟨hm0, u, hwb, hlineu, hmembu⟩ := seg1pt_hside hnv hX ht
  obtain ⟨-, v, hwd, hlinev, hmembv⟩ := seg1pt_hside hnv hX hb
  have hu1 : u ≤ X1 := prod_nonpos_le_right hx hmembu
  have hv1 : v ≤ X1 := prod_nonpos_le_right hx hmembv
  have hkey : (segmentSlope p1 p2 * (X1 - p1.1) + p1.2 - Y0) *
      (segmentSlope p1 p2 * (X1 - p1.1) + p1.2 - Y1) =
      segmentSlope p1 p2 * segmentSlope p1 p2 * ((X1 - v) * (X1 - u)) := by
    rw [← hlineu, ← hlinev]
    ring
  rw [hkey] at hmc
  have h7 : (X1 - v) * (X1 - u) ≤ 0 := cancel_sq_nonpos hm0 hmc
  have h8 : 0 ≤ (X1 - v) * (X1 - u) :=
    mul_nonneg (by linarith) (by linarith)
  have h10 : (X1 - v) * (X1 - u) = 0 := le_antisymm h7 h8
  rcases mul_eq_zero.mp h10 with h | h
  · right
    have hv : v = X1 := by linarith
    rw [hv] at hlinev
    rw [hwc, hwd, hv, hlinev]
  · left
    have hu : u = X1 := by linarith
    rw [hu] at hlineu
    rw [hwc, hwb, hu, hlineu]

theorem sxb_sideVals_two (p1 p2 : ℚ × ℚ) (X0 Y0 X1 Y1 : ℚ)
    (hx : X0 ≤ X1) (hy : Y0 ≤ Y1) :
    ∃ v1 v2 : Int × Int, ∀ x : Int × Int,
      (segmentXsegment1pt p1 p2 (X0, Y0) (X0, Y1) = some x ∨
       segmentXsegment1pt p1 p2 (X0, Y1) (X1, Y1) = some x ∨
       segmentXsegment1pt p1 p2 (X1, Y1) (X1, Y0) = some x ∨
       segmentXsegment1pt p1 p2 (X0, Y0) (X1, Y0) = some x) →
      x = v1 ∨ x = v2 := by
  by_cases hnv : p1.1 = p2.1
  · refine ⟨roundPoint (p1.1, Y1), roundPoint (p1.1, Y0), ?_⟩
    rintro x (h | h | h | h)
    · rw [seg1pt_vv hnv (show ((X0, Y0) : ℚ × ℚ).1 = ((X0, Y1) : ℚ × ℚ).1 from rfl)] at h
      exact Option.noConfusion h
    · exact Or.inl (seg1pt_pvert_hq hnv h)
    · rw [seg1pt_vv hnv (show ((X1, Y1) : ℚ × ℚ).1 = ((X1, Y0) : ℚ × ℚ).1 from rfl)] at h
      exact Option.noConfusion h
    · exact Or.inr (seg1pt_pvert_hq hnv h)
  · by_cases hX : X0 = X1
    · refine ⟨roundPoint (X0, segmentSlope p1 p2 * (X0 - p1.1) + p1.2),
        roundPoint (X1, segmentSlope p1 p2 * (X1 - p1.1) + p1.2), ?_⟩
      rintro x (h | h | h | h)
      · exact Or.inl (seg1pt_vside hnv (show X0 = X0 from rfl) h).1
      · exact Or.inl (seg1pt_vside hnv hX h).1
      · exact Or.inr (seg1pt_vside hnv (show X1 = X1 from rfl) h).1
      · exact Or.inl (seg1pt_vside hnv hX h).1
    · by_cases hm0 : segmentSlope p1 p2 = 0
      · refine ⟨roundPoint (X0, segmentSlope p1 p2 * (X0 - p1.1) + p1.2),
          roundPoint (X1, segmentSlope p1 p2 * (X1 - p1.1) + p1.2), ?_⟩
        rintro x (h | h | h | h)
        · exact Or.inl (seg1pt_vside hnv (show X0 = X0 from rfl) h).1
        · exact absurd hm0 (seg1pt_hside hnv hX h).1
        · exact Or.inr (seg1pt_vside hnv (show X1 = X1 from rfl) h).1
        · exact absurd hm0 (seg1pt_hside hnv hX h).1
      · rcases hst : segmentXsegment1pt p1 p2 (X0, Y1) (X1, Y1) with _ | bt
        · rcases hsb : segmentXsegment1pt p1 p2 (X0, Y0) (X1, Y0) with _ | bb
          · refine ⟨roundPoint (X0, segmentSlope p1 p2 * (X0 - p1.1) + p1.2),
              roundPoint (X1, segmentSlope p1 p2 * (X1 - p1.1) + p1.2), ?_⟩
            rintro x (h | h | h | h)
            · exact Or.inl (seg1pt_vside hnv (show X0 = X0 from rfl) h).1
            · exact Option.noConfusion h
            · exact Or.inr (seg1pt_vside hnv (show X1 = X1 from rfl) h).1
            · exact Option.noConfusion h
          · rcases hsl : segmentXsegment1pt p1 p2 (X0, Y0) (X0, Y1) with _ | al
            · rcases hsr : segmentXsegment1pt p1 p2 (X1, Y1) (X1, Y0) with _ | ar
              · refine ⟨bb, bb, ?_⟩
                rintro x (h | h | h | h)
                · exact Option.noConfusion h
                · exact Option.noConfusion h
                · exact Option.noConfusion h
                · exact Or.inl (Option.some.inj h).symm
              · refine ⟨ar, bb, ?_⟩
                rintro x (h | h | h | h)
                · exact Option.noConfusion h
                · exact Option.noConfusion h
                · exact Or.inl (Option.some.inj h).symm
                · exact Or.inr (Option.some.inj h).symm
            · rcases hsr : segmentXsegment1pt p1 p2 (X1, Y1) (X1, Y0) with _ | ar
              · refine ⟨al, bb, ?_⟩
                rintro x (h | h | h | h)
                · exact Or.inl (Option.some.inj h).symm
                · exact Option.noConfusion h
                · exact Option.noConfusion h
                · exact Or.inr (Option.some.inj h).symm
              · refine ⟨al, ar, ?_⟩
                rintro x (h | h | h | h)
                · exact Or.inl (Option.some.inj h).symm
                · exact Option.noConfusion h
                · exact Or.inr (Option.some.inj h).symm
                · obtain rfl : bb = x := Option.some.inj h
                  rcases sxb_triple_lrb hy hnv hX hsl hsr hsb with hq | hq
                  · exact Or.inl hq
                  · exact Or.inr hq
        · rcases hsb : segmentXsegment1pt p1 p2 (X0, Y0) (X1, Y0) with _ | bb
          · rcases hsl : segmentXsegment1pt p1 p2 (X0, Y0) (X0, Y1) with _ | al
            · rcases hsr : segmentXsegment1pt p1 p2 (X1, Y1) (X1, Y0) with _ | ar
              · refine ⟨bt, bt, ?_⟩
                rintro x (h | h | h | h)
                · exact Option.noConfusion h
                · exact Or.inl (Option.some.inj h).symm
                · exact Option.noConfusion h
                · exact Option.noConfusion h
              · refine ⟨ar, bt, ?_⟩
                rintro x (h | h | h | h)
                · exact Option.noConfusion h
                · exact Or.inr (Option.some.inj h).symm
                · exact Or.inl (Option.some.inj h).symm
                · exact Option.noConfusion h
            · rcases hsr : segmentXsegment1pt p1 p2 (X1, Y1) (X1, Y0) with _ | ar
              · refine ⟨al, bt, ?_⟩
                rintro x (h | h | h | h)
                · exact Or.inl (Option.some.inj h).symm
                · exact Or.inr (Option.some.inj h).symm
                · exact Option.noConfusion h
                · exact Option.noConfusion h
              · refine ⟨al, ar, ?_⟩
                rintro x (h | h | h | h)
                · exact Or.inl (Option.some.inj h).symm
                · obtain rfl : bt = x := Option.some.inj h
                  rcases sxb_triple_lrt hy hnv hX hsl hsr hst with hq | hq
                  · exact Or.inl hq
                  · exact Or.inr hq
                · exact Or.inr (Option.some.inj h).symm
                · exact Option.noConfusion h
          · refine ⟨bt, bb, ?_⟩
            rintro x (h | h | h | h)
            · rcases sxb_triple_ltb hx hnv hX h hst hsb with hq | hq
              · exact Or.inl hq
              · exact Or.inr hq
            · exact Or.inl (Option.some.inj h).symm
            · rcases sxb_triple_rtb hx hnv hX h hst hsb with hq | hq
              · exact Or.inl hq
              · exact Or.inr hq
            · exact Or.inr (Option.some.inj h).symm

theorem addCheck_noncorner {p1 p2 c1 c2 : ℚ × ℚ} {w : Int × Int} {one : Bool}
    (h : segmentXsegment1pt p1 p2 c1 c2 = some w)
    (hc : ¬(((w.1 : ℚ), (w.2 : ℚ)) = c1 ∨ ((w.1 : ℚ), (w.2 : ℚ)) = c2))
    (acc : List (Int × Int) × List (Int × Int)) :
    addCheck p1 p2 one c1 c2 acc = (acc.1 ++ [w], acc.2) := by
  unfold addCheck
  rw [h]
  dsimp only
  rw [if_neg hc]

theorem addCheck_one_corner {p1 p2 c1 c2 : ℚ × ℚ} {w : Int × Int}
    (h : segmentXsegment1pt p1 p2 c1 c2 = some w)
    (hc : ((w.1 : ℚ), (w.2 : ℚ)) = c1 ∨ ((w.1 : ℚ), (w.2 : ℚ)) = c2)
    (acc : List (Int × Int) × List (Int × Int)) :
    addCheck p1 p2 true c1 c2 acc = (acc.1 ++ [w], acc.2) := by
  unfold addCheck
  rw [h]
  dsimp only
  rw [if_pos hc]
  simp

theorem addCheck_snd_true {p1 p2 c1 c2 : ℚ × ℚ}
    (acc : List (Int × Int) × List (Int × Int)) :
    (addCheck p1 p2 true c1 c2 acc).2 = acc.2 := by
  rcases hres : segmentXsegment1pt p1 p2 c1 c2 with _ | v
  · rw [addCheck_none hres]
  · by_cases hc : ((v.1 : ℚ), (v.2 : ℚ)) = c1 ∨ ((v.1 : ℚ), (v.2 : ℚ)) = c2
    · rw [addCheck_one_corner hres hc]
    · rw [addCheck_noncorner hres hc]

theorem addCheck_mem_cases {p1 p2 c1 c2 : ℚ × ℚ} {one : Bool}
    {acc : List (Int × Int) × List (Int × Int)} {x : Int × Int}
    (h : x ∈ (addCheck p1 p2 one c1 c2 acc).1 ∨ x ∈ (addCheck p1 p2 one c1 c2 acc).2) :
    (x ∈ acc.1 ∨ x ∈ acc.2) ∨ segmentXsegment1pt p1 p2 c1 c2 = some x := by
  rcases hres : segmentXsegment1pt p1 p2 c1 c2 with _ | v
  · rw [addCheck_none hres] at h
    exact Or.inl h
  · by_cases hc : ((v.1 : ℚ), (v.2 : ℚ)) = c1 ∨ ((v.1 : ℚ), (v.2 : ℚ)) = c2
    · cases one
      · rw [addCheck_corner hres hc] at h
        rcases h with h | h
        · exact Or.inl (Or.inl h)
        · rcases List.mem_append.mp h with h | h
          · exact Or.inl (Or.inr h)
          · obtain rfl := List.mem_singleton.mp h
            exact Or.inr rfl
      · rw [addCheck_one_corner hres hc] at h
        rcases h with h | h
        · rcases List.mem_append.mp h with h | h
          · exact Or.inl (Or.inl h)
          · obtain rfl := List.mem_singleton.mp h
            exact Or.inr rfl
        · exact Or.inl (Or.inr h)
    · rw [addCheck_noncorner hres hc] at h
      rcases h with h | h
      · rcases List.mem_append.mp h with h | h
        · exact Or.inl (Or.inl h)
        · obtain rfl := List.mem_singleton.mp h
          exact Or.inr rfl
      · exact Or.inl (Or.inr h)

theorem addCheck_class {Q : Int × Int → Prop} {p1 p2 c1 c2 : ℚ × ℚ}
    {acc : List (Int × Int) × List (Int × Int)}
    (hacc1 : ∀ x ∈ acc.1, ¬ Q x) (hacc2 : ∀ x ∈ acc.2, Q x)
    (hside : ∀ v : Int × Int, segmentXsegment1pt p1 p2 c1 c2 = some v →
      ((((v.1 : ℚ), (v.2 : ℚ)) = c1 ∨ ((v.1 : ℚ), (v.2 : ℚ)) = c2) → Q v) ∧
      (¬(((v.1 : ℚ), (v.2 : ℚ)) = c1 ∨ ((v.1 : ℚ), (v.2 : ℚ)) = c2) → ¬ Q v)) :
    (∀ x ∈ (addCheck p1 p2 false c1 c2 acc).1, ¬ Q x) ∧
    (∀ x ∈ (addCheck p1 p2 false c1 c2 acc).2, Q x) := by
  rcases hres : segmentXsegment1pt p1 p2 c1 c2 with _ | v
  · rw [addCheck_none hres]
    exact ⟨hacc1, hacc2⟩
  · by_cases hc : ((v.1 : ℚ), (v.2 : ℚ)) = c1 ∨ ((v.1 : ℚ), (v.2 : ℚ)) = c2
    · rw [addCheck_corner hres hc]
      refine ⟨fun x hx => hacc1 x hx, fun x hx => ?_⟩
      rcases List.mem_append.mp hx with hx | hx
      · exact hacc2 x hx
      · obtain rfl := List.mem_singleton.mp hx
        exact (hside x hres).1 hc
    · rw [addCheck_noncorner hres hc]
      refine ⟨fun x hx => ?_, fun x hx => hacc2 x hx⟩
      rcases List.mem_append.mp hx with hx | hx
      · exact hacc1 x hx
      · obtain rfl := List.mem_singleton.mp hx
        exact (hside x hres).2 hc

theorem canonicalizeExtents_minmax (c1 c2 : Int × Int) :
    canonicalizeExtents (iPt c1) (iPt c2) =
      canonicalizeExtents (iPt (min c1.1 c2.1, min c1.2 c2.2))
        (iPt (max c1.1 c2.1, max c1.2 c2.2)) := by
  unfold canonicalizeExtents iPt
  dsimp only
  have e1 : min ((min c1.1 c2.1 : Int) : ℚ) ((max c1.1 c2.1 : Int) : ℚ) =
      min ((c1.1 : Int) : ℚ) ((c2.1 : Int) : ℚ) := by
    rw [min_eq_left (by exact_mod_cast (min_le_max : min c1.1 c2.1 ≤ max c1.1 c2.1))]
    exact_mod_cast rfl
  have e2 : min ((min c1.2 c2.2 : Int) : ℚ) ((max c1.2 c2.2 : Int) : ℚ) =
      min ((c1.2 : Int) : ℚ) ((c2.2 : Int) : ℚ) := by
    rw [min_eq_left (by exact_mod_cast (min_le_max : min c1.2 c2.2 ≤ max c1.2 c2.2))]
    exact_mod_cast rfl
  have e3 : max ((min c1.1 c2.1 : Int) : ℚ) ((max c1.1 c2.1 : Int) : ℚ) =
      max ((c1.1 : Int) : ℚ) ((c2.1 : Int) : ℚ) := by
    rw [max_eq_right (by exact_mod_cast (min_le_max : min c1.1 c2.1 ≤ max c1.1 c2.1))]
    exact_mod_cast rfl
  have e4 : max ((min c1.2 c2.2 : Int) : ℚ) ((max c1.2 c2.2 : Int) : ℚ) =
      max ((c1.2 : Int) : ℚ) ((c2.2 : Int) : ℚ) := by
    rw [max_eq_right (by exact_mod_cast (min_le_max : min c1.2 c2.2 ≤ max c1.2 c2.2))]
    exact_mod_cast rfl
  rw [e1, e2, e3, e4]

theorem segmentXboxNumPts_congr {pt1 pt2 c1 c2 d1 d2 : ℚ × ℚ}
    (h : canonicalizeExtents c1 c2 = canonicalizeExtents d1 d2) :
    segmentXboxNumPts pt1 pt2 c1 c2 = segmentXboxNumPts pt1 pt2 d1 d2 := by
  unfold segmentXboxNumPts
  rw [h]

theorem segmentXboxNumPts_eq_aux (pt1 pt2 c1 c2 : ℚ × ℚ) :
    segmentXboxNumPts pt1 pt2 c1 c2 =
      (uniqueify (sxbA4 pt1 pt2 c1 c2).1).length +
      (uniqueify (sxbA4 pt1 pt2 c1 c2).2).length := rfl

theorem sxb_numPts_le_two_canonical (p1 p2 : Int × Int) (X0 Y0 X1 Y1 : Int)
    (hx : X0 ≤ X1) (hy : Y0 ≤ Y1) :
    segmentXboxNumPts (iPt p1) (iPt p2) (iPt (X0, Y0)) (iPt (X1, Y1)) ≤ 2 := by
  have hx' : (X0 : ℚ) ≤ (X1 : ℚ) := by exact_mod_cast hx
  have hy' : (Y0 : ℚ) ≤ (Y1 : ℚ) := by exact_mod_cast hy
  have hRc : canonicalizeExtents (iPt (X0, Y0)) (iPt (X1, Y1)) =
      ⟨(X0 : ℚ), (Y0 : ℚ), (X1 : ℚ), (Y1 : ℚ)⟩ := by
    unfold canonicalizeExtents iPt
    dsimp only
    rw [min_eq_left hx', min_eq_left hy', max_eq_right hx', max_eq_right hy']
  have hA4 : sxbA4 (iPt p1) (iPt p2) (iPt (X0, Y0)) (iPt (X1, Y1)) =
      addCheck (iPt p1) (iPt p2)
        (sxbOne (iPt p1) (iPt p2) (iPt (X0, Y0)) (iPt (X1, Y1)))
        ((X0 : ℚ), (Y0 : ℚ)) ((X1 : ℚ), (Y0 : ℚ))
        (addCheck (iPt p1) (iPt p2)
          (sxbOne (iPt p1) (iPt p2) (iPt (X0, Y0)) (iPt (X1, Y1)))
          ((X1 : ℚ), (Y1 : ℚ)) ((X1 : ℚ), (Y0 : ℚ))
          (addCheck (iPt p1) (iPt p2)
            (sxbOne (iPt p1) (iPt p2) (iPt (X0, Y0)) (iPt (X1, Y1)))
            ((X0 : ℚ), (Y1 : ℚ)) ((X1 : ℚ), (Y1 : ℚ))
            (addCheck (iPt p1) (iPt p2)
              (sxbOne (iPt p1) (iPt p2) (iPt (X0, Y0)) (iPt (X1, Y1)))
              ((X0 : ℚ), (Y0 : ℚ)) ((X0 : ℚ), (Y1 : ℚ)) ([], [])))) := by
    rw [sxbA4_unfold, hRc]
  have hprov : ∀ x : Int × Int,
      x ∈ (sxbA4 (iPt p1) (iPt p2) (iPt (X0, Y0)) (iPt (X1, Y1))).1 ∨
        x ∈ (sxbA4 (iPt p1) (iPt p2) (iPt (X0, Y0)) (iPt (X1, Y1))).2 →
      segmentXsegment1pt (iPt p1) (iPt p2) ((X0 : ℚ), (Y0 : ℚ)) ((X0 : ℚ), (Y1 : ℚ)) =
          some x ∨
      segmentXsegment1pt (iPt p1) (iPt p2) ((X0 : ℚ), (Y1 : ℚ)) ((X1 : ℚ), (Y1 : ℚ)) =
          some x ∨
      segmentXsegment1pt (iPt p1) (iPt p2) ((X1 : ℚ), (Y1 : ℚ)) ((X1 : ℚ), (Y0 : ℚ)) =
          some x ∨
      segmentXsegment1pt (iPt p1) (iPt p2) ((X0 : ℚ), (Y0 : ℚ)) ((X1 : ℚ), (Y0 : ℚ)) =
          some x := by
    intro x hx2
    rw [hA4] at hx2
    rcases addCheck_mem_cases hx2 with hx2 | hres
    · rcases addCheck_mem_cases hx2 with hx2 | hres
      · rcases addCheck_mem_cases hx2 with hx2 | hres
        · rcases addCheck_mem_cases hx2 with hx2 | hres
          · rcases hx2 with hx2 | hx2 <;> exact absurd hx2 (List.not_mem_nil x)
          · exact Or.inl hres
        · exact Or.inr (Or.inl hres)
      · exact Or.inr (Or.inr (Or.inl hres))
    · exact Or.inr (Or.inr (Or.inr hres))
  obtain ⟨v1, v2, hcov⟩ :=
    sxb_sideVals_two (iPt p1) (iPt p2) (X0 : ℚ) (Y0 : ℚ) (X1 : ℚ) (Y1 : ℚ) hx' hy'
  have hmem2 : ∀ x : Int × Int,
      x ∈ (sxbA4 (iPt p1) (iPt p2) (iPt (X0, Y0)) (iPt (X1, Y1))).1 ∨
        x ∈ (sxbA4 (iPt p1) (iPt p2) (iPt (X0, Y0)) (iPt (X1, Y1))).2 →
      x = v1 ∨ x = v2 :=
    fun x hx2 => hcov x (hprov x hx2)
  have hdisj : List.Disjoint
      (uniqueify (sxbA4 (iPt p1) (iPt p2) (iPt (X0, Y0)) (iPt (X1, Y1))).1)
      (uniqueify (sxbA4 (iPt p1) (iPt p2) (iPt (X0, Y0)) (iPt (X1, Y1))).2) := by
    cases hone : sxbOne (iPt p1) (iPt p2) (iPt (X0, Y0)) (iPt (X1, Y1))
    · rw [hone] at hA4
      have hsideL : ∀ v : Int × Int,
          segmentXsegment1pt (iPt p1) (iPt p2) ((X0 : ℚ), (Y0 : ℚ)) ((X0 : ℚ), (Y1 : ℚ)) =
            some v →
          ((((v.1 : ℚ), (v.2 : ℚ)) = ((X0 : ℚ), (Y0 : ℚ)) ∨
            ((v.1 : ℚ), (v.2 : ℚ)) = ((X0 : ℚ), (Y1 : ℚ))) →
            (((v.1 : ℚ) = (X0 : ℚ) ∨ (v.1 : ℚ) = (X1 : ℚ)) ∧
              ((v.2 : ℚ) = (Y0 : ℚ) ∨ (v.2 : ℚ) = (Y1 : ℚ)))) ∧
          (¬(((v.1 : ℚ), (v.2 : ℚ)) = ((X0 : ℚ), (Y0 : ℚ)) ∨
            ((v.1 : ℚ), (v.2 : ℚ)) = ((X0 : ℚ), (Y1 : ℚ))) →
            ¬(((v.1 : ℚ) = (X0 : ℚ) ∨ (v.1 : ℚ) = (X1 : ℚ)) ∧
              ((v.2 : ℚ) = (Y0 : ℚ) ∨ (v.2 : ℚ) = (Y1 : ℚ)))) := by
        intro v hv
        have h1 : v.1 = X0 := seg1pt_fst_eq hv
        have h1q : (v.1 : ℚ) = (X0 : ℚ) := by exact_mod_cast h1
        constructor
        · rintro (hc | hc)
          · exact ⟨Or.inl (Prod.ext_iff.mp hc).1, Or.inl (Prod.ext_iff.mp hc).2⟩
          · exact ⟨Or.inl (Prod.ext_iff.mp hc).1, Or.inr (Prod.ext_iff.mp hc).2⟩
        · intro hnc hq
          apply hnc
          rcases hq.2 with h2 | h2
          · exact Or.inl (Prod.ext_iff.mpr ⟨h1q, h2⟩)
          · exact Or.inr (Prod.ext_iff.mpr ⟨h1q, h2⟩)
      have hsideT : ∀ v : Int × Int,
          segmentXsegment1pt (iPt p1) (iPt p2) ((X0 : ℚ), (Y1 : ℚ)) ((X1 : ℚ), (Y1 : ℚ)) =
            some v →
          ((((v.1 : ℚ), (v.2 : ℚ)) = ((X0 : ℚ), (Y1 : ℚ)) ∨
            ((v.1 : ℚ), (v.2 : ℚ)) = ((X1 : ℚ), (Y1 : ℚ))) →
            (((v.1 : ℚ) = (X0 : ℚ) ∨ (v.1 : ℚ) = (X1 : ℚ)) ∧
              ((v.2 : ℚ) = (Y0 : ℚ) ∨ (v.2 : ℚ) = (Y1 : ℚ)))) ∧
          (¬(((v.1 : ℚ), (v.2 : ℚ)) = ((X0 : ℚ), (Y1 : ℚ)) ∨
            ((v.1 : ℚ), (v.2 : ℚ)) = ((X1 : ℚ), (Y1 : ℚ))) →
            ¬(((v.1 : ℚ) = (X0 : ℚ) ∨ (v.1 : ℚ) = (X1 : ℚ)) ∧
              ((v.2 : ℚ) = (Y0 : ℚ) ∨ (v.2 : ℚ) = (Y1 : ℚ)))) := by
        intro v hv
        have h2 : v.2 = Y1 := seg1pt_snd_eq hv
        have h2q : (v.2 : ℚ) = (Y1 : ℚ) := by exact_mod_cast h2
        constructor
        · rintro (hc | hc)
          · exact ⟨Or.inl (Prod.ext_iff.mp hc).1, Or.inr (Prod.ext_iff.mp hc).2⟩
          · exact ⟨Or.inr (Prod.ext_iff.mp hc).1, Or.inr (Prod.ext_iff.mp hc).2⟩
        · intro hnc hq
          apply hnc
          rcases hq.1 with h1 | h1
          · exact Or.inl (Prod.ext_iff.mpr ⟨h1, h2q⟩)
          · exact Or.inr (Prod.ext_iff.mpr ⟨h1, h2q⟩)
      have hsideR : ∀ v : Int × Int,
          segmentXsegment1pt (iPt p1) (iPt p2) ((X1 : ℚ), (Y1 : ℚ)) ((X1 : ℚ), (Y0 : ℚ)) =
            some v →
          ((((v.1 : ℚ), (v.2 : ℚ)) = ((X1 : ℚ), (Y1 : ℚ)) ∨
            ((v.1 : ℚ), (v.2 : ℚ)) = ((X1 : ℚ), (Y0 : ℚ))) →
            (((v.1 : ℚ) = (X0 : ℚ) ∨ (v.1 : ℚ) = (X1 : ℚ)) ∧
              ((v.2 : ℚ) = (Y0 : ℚ) ∨ (v.2 : ℚ) = (Y1 : ℚ)))) ∧
          (¬(((v.1 : ℚ), (v.2 : ℚ)) = ((X1 : ℚ), (Y1 : ℚ)) ∨
            ((v.1 : ℚ), (v.2 : ℚ)) = ((X1 : ℚ), (Y0 : ℚ))) →
            ¬(((v.1 : ℚ) = (X0 : ℚ) ∨ (v.1 : ℚ) = (X1 : ℚ)) ∧
              ((v.2 : ℚ) = (Y0 : ℚ) ∨ (v.2 : ℚ) = (Y1 : ℚ)))) := by
        intro v hv
        have h1 : v.1 = X1 := seg1pt_fst_eq hv
        have h1q : (v.1 : ℚ) = (X1 : ℚ) := by exact_mod_cast h1
        constructor
        · rintro (hc | hc)
          · exact ⟨Or.inr (Prod.ext_iff.mp hc).1, Or.inr (Prod.ext_iff.mp hc).2⟩
          · exact ⟨Or.inr (Prod.ext_iff.mp hc).1, Or.inl (Prod.ext_iff.mp hc).2⟩
        · intro hnc hq
          apply hnc
          rcases hq.2 with h2 | h2
          · exact Or.inr (Prod.ext_iff.mpr ⟨h1q, h2⟩)
          · exact Or.inl (Prod.ext_iff.mpr ⟨h1q, h2⟩)
      have hsideB : ∀ v : Int × Int,
          segmentXsegment1pt (iPt p1) (iPt p2) ((X0 : ℚ), (Y0 : ℚ)) ((X1 : ℚ), (Y0 : ℚ)) =
            some v →
          ((((v.1 : ℚ), (v.2 : ℚ)) = ((X0 : ℚ), (Y0 : ℚ)) ∨
            ((v.1 : ℚ), (v.2 : ℚ)) = ((X1 : ℚ), (Y0 : ℚ))) →
            (((v.1 : ℚ) = (X0 : ℚ) ∨ (v.1 : ℚ) = (X1 : ℚ)) ∧
              ((v.2 : ℚ) = (Y0 : ℚ) ∨ (v.2 : ℚ) = (Y1 : ℚ)))) ∧
          (¬(((v.1 : ℚ), (v.2 : ℚ)) = ((X0 : ℚ), (Y0 : ℚ)) ∨
            ((v.1 : ℚ), (v.2 : ℚ)) = ((X1 : ℚ), (Y0 : ℚ))) →
            ¬(((v.1 : ℚ) = (X0 : ℚ) ∨ (v.1 : ℚ) = (X1 : ℚ)) ∧
              ((v.2 : ℚ) = (Y0 : ℚ) ∨ (v.2 : ℚ) = (Y1 : ℚ)))) := by
        intro v hv
        have h2 : v.2 = Y0 := seg1pt_snd_eq hv
        have h2q : (v.2 : ℚ) = (Y0 : ℚ) := by exact_mod_cast h2
        constructor
        · rintro (hc | hc)
          · exact ⟨Or.inl (Prod.ext_iff.mp hc).1, Or.inl (Prod.ext_iff.mp hc).2⟩
          · exact ⟨Or.inr (Prod.ext_iff.mp hc).1, Or.inl (Prod.ext_iff.mp hc).2⟩
        · intro hnc hq
          apply hnc
          rcases hq.1 with h1 | h1
          · exact Or.inl (Prod.ext_iff.mpr ⟨h1, h2q⟩)
          · exact Or.inr (Prod.ext_iff.mpr ⟨h1, h2q⟩)
      have hbase1 : ∀ x ∈ (([], []) : List (Int × Int) × List (Int × Int)).1,
          ¬(((x.1 : ℚ) = (X0 : ℚ) ∨ (x.1 : ℚ) = (X1 : ℚ)) ∧
            ((x.2 : ℚ) = (Y0 : ℚ) ∨ (x.2 : ℚ) = (Y1 : ℚ))) :=
        fun x hx2 => absurd hx2 (List.not_mem_nil x)
      have hbase2 : ∀ x ∈ (([], []) : List (Int × Int) × List (Int × Int)).2,
          (((x.1 : ℚ) = (X0 : ℚ) ∨ (x.1 : ℚ) = (X1 : ℚ)) ∧
            ((x.2 : ℚ) = (Y0 : ℚ) ∨ (x.2 : ℚ) = (Y1 : ℚ))) :=
        fun x hx2 => absurd hx2 (List.not_mem_nil x)
      have t1 := addCheck_class hbase1 hbase2 hsideL
      have t2 := addCheck_class t1.1 t1.2 hsideT
      have t3 := addCheck_class t2.1 t2.2 hsideR
      have t4 := addCheck_class t3.1 t3.2 hsideB
      intro a ha hb
      have ha2 := (mem_uniqueify _ a).mp ha
      have hb2 := (mem_uniqueify _ a).mp hb
      rw [hA4] at ha2 hb2
      exact t4.1 a ha2 (t4.2 a hb2)
    · rw [hone] at hA4
      have hC : (sxbA4 (iPt p1) (iPt p2) (iPt (X0, Y0)) (iPt (X1, Y1))).2 = [] := by
        rw [hA4, addCheck_snd_true, addCheck_snd_true, addCheck_snd_true,
          addCheck_snd_true]
      intro a ha hb
      rw [hC] at hb
      exact absurd ((mem_uniqueify _ a).mp hb) (List.not_mem_nil a)
  have hnodup : (uniqueify (sxbA4 (iPt p1) (iPt p2) (iPt (X0, Y0)) (iPt (X1, Y1))).1 ++
      uniqueify (sxbA4 (iPt p1) (iPt p2) (iPt (X0, Y0)) (iPt (X1, Y1))).2).Nodup :=
    List.Nodup.append (nodup_uniqueify _) (nodup_uniqueify _) hdisj
  have hthree : ∀ a b c : Int × Int,
      a ∈ uniqueify (sxbA4 (iPt p1) (iPt p2) (iPt (X0, Y0)) (iPt (X1, Y1))).1 ++
        uniqueify (sxbA4 (iPt p1) (iPt p2) (iPt (X0, Y0)) (iPt (X1, Y1))).2 →
      b ∈ uniqueify (sxbA4 (iPt p1) (iPt p2) (iPt (X0, Y0)) (iPt (X1, Y1))).1 ++
        uniqueify (sxbA4 (iPt p1) (iPt p2) (iPt (X0, Y0)) (iPt (X1, Y1))).2 →
      c ∈ uniqueify (sxbA4 (iPt p1) (iPt p2) (iPt (X0, Y0)) (iPt (X1, Y1))).1 ++
        uniqueify (sxbA4 (iPt p1) (iPt p2) (iPt (X0, Y0)) (iPt (X1, Y1))).2 →
      a = b ∨ a = c ∨ b = c := by
    intro a b c ha hb hc
    have hA : a = v1 ∨ a = v2 := by
      rcases List.mem_append.mp ha with h | h
      · exact hmem2 a (Or.inl ((mem_uniqueify _ a).mp h))
      · exact hmem2 a (Or.inr ((mem_uniqueify _ a).mp h))
    have hB : b = v1 ∨ b = v2 := by
      rcases List.mem_append.mp hb with h | h
      · exact hmem2 b (Or.inl ((mem_uniqueify _ b).mp h))
      · exact hmem2 b (Or.inr ((mem_uniqueify _ b).mp h))
    have hD : c = v1 ∨ c = v2 := by
      rcases List.mem_append.mp hc with h | h
      · exact hmem2 c (Or.inl ((mem_uniqueify _ c).mp h))
      · exact hmem2 c (Or.inr ((mem_uniqueify _ c).mp h))
    rcases hA with rfl | rfl <;> rcases hB with rfl | rfl <;>
      rcases hD with rfl | rfl <;> simp
  have hlen := nodup_length_le_two hnodup hthree
  rw [List.length_append] at hlen
  rw [segmentXboxNumPts_eq_aux]
  exact hlen

/-- C9: for every pair of segment endpoints and every pair of box corners
with integer coordinates, the `numPts` quantity of `geometry.segmentXbox`
(number of deduplicated regular intersections plus deduplicated corner
candidates over the four sides) is at most 2, so the source's
`assert numPts <= 2` never fails and `segmentXbox` always returns. -/
theorem C9_segmentXbox_numPts_le_two (p1 p2 c1 c2 : Int × Int) :
    segmentXboxNumPts (iPt p1) (iPt p2) (iPt c1) (iPt c2) ≤ 2 := by
  rw [segmentXboxNumPts_congr (canonicalizeExtents_minmax c1 c2)]
  exact sxb_numPts_le_two_canonical p1 p2 (min c1.1 c2.1) (min c1.2 c2.2)
    (max c1.1 c2.1) (max c1.2 c2.2) min_le_max min_le_max
